import Mathlib

/-!
Verification of the case lifecycle / status-history subsystem of the
hrm-backend repository (app/services/case_service.py, app/routers/cases.py,
app/utils/case_response.py), via a shallow embedding.

Python values are modelled by the inductive `Value`; dictionaries are
association lists; MongoDB collections are lists of documents; raised
exceptions are modelled by `Except PyError`.  Each definition mirrors the
source function named in its doc comment.
-/

namespace HRM

/-- Model of Python runtime values as they occur in this code base.
`vOid` models `bson.ObjectId`, `vDT` a `datetime` (seconds since epoch). -/
inductive Value where
  | vNone : Value
  | vBool : Bool → Value
  | vInt : Int → Value
  | vStr : String → Value
  | vOid : String → Value
  | vDT : Nat → Value
  | vList : List Value → Value
  | vDict : List (String × Value) → Value
deriving Repr

mutual

/-- Structural (Python `==`) equality on `Value`. -/
def Value.beq : Value → Value → Bool
  | .vNone, .vNone => true
  | .vBool a, .vBool b => a == b
  | .vInt a, .vInt b => a == b
  | .vStr a, .vStr b => a == b
  | .vOid a, .vOid b => a == b
  | .vDT a, .vDT b => a == b
  | .vList xs, .vList ys => Value.beqList xs ys
  | .vDict xs, .vDict ys => Value.beqPairs xs ys
  | _, _ => false

def Value.beqList : List Value → List Value → Bool
  | [], [] => true
  | x :: xs, y :: ys => Value.beq x y && Value.beqList xs ys
  | _, _ => false

def Value.beqPairs : List (String × Value) → List (String × Value) → Bool
  | [], [] => true
  | (k, v) :: xs, (k', v') :: ys => k == k' && Value.beq v v' && Value.beqPairs xs ys
  | _, _ => false

end

mutual

theorem Value.beq_sound : ∀ a b : Value, Value.beq a b = true → a = b
  | .vNone, .vNone, _ => rfl
  | .vBool a, .vBool b, h => by simp [Value.beq] at h; simp [h]
  | .vInt a, .vInt b, h => by simp [Value.beq] at h; simp [h]
  | .vStr a, .vStr b, h => by simp [Value.beq] at h; simp [h]
  | .vOid a, .vOid b, h => by simp [Value.beq] at h; simp [h]
  | .vDT a, .vDT b, h => by simp [Value.beq] at h; simp [h]
  | .vList xs, .vList ys, h => by
      simp only [Value.beq] at h
      simp [Value.beqList_sound xs ys h]
  | .vDict xs, .vDict ys, h => by
      simp only [Value.beq] at h
      simp [Value.beqPairs_sound xs ys h]

theorem Value.beqList_sound : ∀ xs ys : List Value, Value.beqList xs ys = true → xs = ys
  | [], [], _ => rfl
  | x :: xs, y :: ys, h => by
      simp only [Value.beqList, Bool.and_eq_true] at h
      rw [Value.beq_sound x y h.1, Value.beqList_sound xs ys h.2]

theorem Value.beqPairs_sound :
    ∀ xs ys : List (String × Value), Value.beqPairs xs ys = true → xs = ys
  | [], [], _ => rfl
  | (k, v) :: xs, (k', v') :: ys, h => by
      simp only [Value.beqPairs, Bool.and_eq_true, beq_iff_eq] at h
      rw [h.1.1, Value.beq_sound v v' h.1.2, Value.beqPairs_sound xs ys h.2]

end

mutual

theorem Value.beq_refl : ∀ a : Value, Value.beq a a = true
  | .vNone => rfl
  | .vBool a => by simp [Value.beq]
  | .vInt a => by simp [Value.beq]
  | .vStr a => by simp [Value.beq]
  | .vOid a => by simp [Value.beq]
  | .vDT a => by simp [Value.beq]
  | .vList xs => by simp only [Value.beq]; exact Value.beqList_refl xs
  | .vDict xs => by simp only [Value.beq]; exact Value.beqPairs_refl xs

theorem Value.beqList_refl : ∀ xs : List Value, Value.beqList xs xs = true
  | [] => rfl
  | x :: xs => by
      simp only [Value.beqList, Bool.and_eq_true]
      exact ⟨Value.beq_refl x, Value.beqList_refl xs⟩

theorem Value.beqPairs_refl : ∀ xs : List (String × Value), Value.beqPairs xs xs = true
  | [] => rfl
  | (k, v) :: xs => by
      simp [Value.beqPairs, Value.beq_refl v, Value.beqPairs_refl xs]

end

instance : DecidableEq Value := fun a b =>
  if h : Value.beq a b = true then isTrue (Value.beq_sound a b h)
  else isFalse (fun he => h (he ▸ Value.beq_refl a))

instance : BEq Value := ⟨Value.beq⟩

instance : LawfulBEq Value where
  eq_of_beq h := Value.beq_sound _ _ h
  rfl := Value.beq_refl _

/-- Python exceptions that this code can raise.  Note that
`bson.errors.InvalidId` derives from `BSONError (Exception)`, *not* from
`ValueError`, so an `except ValueError` clause does not catch it. -/
inductive PyError where
  | valueError : String → PyError
  | keyError : String → PyError
  | invalidId : String → PyError
  | typeError : String → PyError
deriving Repr, DecidableEq

/-- A Python dict (as used for Mongo documents and request payloads). -/
abbrev PyDict := List (String × Value)

/-- `d[k]` lookup returning an `Option`. -/
def dget (d : PyDict) (k : String) : Option Value :=
  match d.find? (fun p => p.1 == k) with
  | some p => some p.2
  | none => none

/-- Python `k in d` membership test. -/
def dhas (d : PyDict) (k : String) : Bool :=
  (dget d k).isSome

/-- `d.get(k)`: Python dict `.get`, defaulting to `None`. -/
def pyGet (d : PyDict) (k : String) : Value :=
  (dget d k).getD .vNone

/-- `d[k] = v`: replace the binding for `k` if present, else append it. -/
def dset (d : PyDict) (k : String) (v : Value) : PyDict :=
  if dhas d k then d.map (fun p => if p.1 == k then (k, v) else p)
  else d ++ [(k, v)]

/-- Python truthiness (`bool(x)`), as used by `if not case_data[field]` etc. -/
def Value.isTruthy : Value → Bool
  | .vNone => false
  | .vBool b => b
  | .vInt n => n != 0
  | .vStr s => !s.isEmpty
  | .vOid _ => true
  | .vDT _ => true
  | .vList xs => !xs.isEmpty
  | .vDict kvs => !kvs.isEmpty

/-- `ObjectId.is_valid` on a string: 24 hexadecimal characters. -/
def oidValid (s : String) : Bool :=
  s.length == 24 && s.toList.all (fun c => c.isDigit || ('a' ≤ c && c ≤ 'f') || ('A' ≤ c && c ≤ 'F'))

/-- `ObjectId(s)` on a string: yields the id, or raises
`bson.errors.InvalidId` when the string is not a well-formed id. -/
def mkObjectId (s : String) : Except PyError String :=
  if oidValid s then .ok s else .error (.invalidId ("not a valid ObjectId: " ++ s))

/-- `ObjectId.is_valid` on an arbitrary value: valid id strings and
existing `ObjectId` instances are valid; anything else is not. -/
def oidIsValidValue : Value → Bool
  | .vStr s => oidValid s
  | .vOid _ => true
  | _ => false

/-- `ObjectId(x)` for `x` already checked with `is_valid`: converts a valid
string, passes an `ObjectId` through. -/
def toObjectIdVal : Value → Value
  | .vStr s => .vOid s
  | v => v

/-- Python `str(x)` restricted to the scalar shapes that reach it in this
code (`str(obj["$oid"])` and `str(ObjectId)` inside `_serialize_case`). -/
def strOfValue : Value → String
  | .vStr s => s
  | .vOid s => s
  | .vInt n => toString n
  | .vDT t => toString t
  | .vBool b => cond b "True" "False"
  | .vNone => "None"
  | .vList _ => "list"
  | .vDict _ => "dict"

mutual

/-- `convert_extended_json` inside `CaseService._serialize_case`: a dict with
an `"$oid"` key becomes the string of that value, a dict with a `"$date"` key
becomes that value as-is, other dicts and lists recurse, an `ObjectId`
becomes its string. -/
def serializeValue : Value → Value
  | .vDict kvs =>
      match dget kvs "$oid" with
      | some v => .vStr (strOfValue v)
      | none =>
        match dget kvs "$date" with
        | some v => v
        | none => .vDict (serializePairs kvs)
  | .vList xs => .vList (serializeList xs)
  | .vOid s => .vStr s
  | v => v

def serializeList : List Value → List Value
  | [] => []
  | x :: xs => serializeValue x :: serializeList xs

def serializePairs : List (String × Value) → List (String × Value)
  | [] => []
  | (k, v) :: rest => (k, serializeValue v) :: serializePairs rest

end

/-- `CaseService._serialize_case` applied to a found (non-`None`) document. -/
def serializeCase (d : PyDict) : Value := serializeValue (.vDict d)

/-! ### Mongo collections and documents -/

/-- The database state: the three collections the case subsystem touches
(`db.cases`, `db.archived_cases`, `db.case_status_history`). -/
structure DB where
  cases : List PyDict
  archived : List PyDict
  statusHistory : List PyDict
deriving Repr, DecidableEq

def emptyDB : DB := ⟨[], [], []⟩

/-- `collection.find_one({"_id": ObjectId(oid)})`: first document whose
`_id` equals the given ObjectId. -/
def findOneById (coll : List PyDict) (oid : String) : Option PyDict :=
  coll.find? (fun d => dget d "_id" == some (.vOid oid))

/-- Remove the first document whose `_id` equals the given ObjectId. -/
def eraseFirstById : List PyDict → String → List PyDict
  | [], _ => []
  | d :: rest, oid =>
      if dget d "_id" == some (.vOid oid) then rest
      else d :: eraseFirstById rest oid

/-- `collection.delete_one({"_id": ObjectId(oid)})`: removes the first
matching document, reporting `deleted_count` (`1` or `0`). -/
def deleteOneById (coll : List PyDict) (oid : String) : List PyDict × Nat :=
  if (findOneById coll oid).isSome then (eraseFirstById coll oid, 1)
  else (coll, 0)

/-- `d[k] = v` for each `(k, v)` of `fs` in order: the effect of a Mongo
`update_one(..., {"$set": fields_to_set})` on one document. -/
def setFields (d : PyDict) : PyDict → PyDict
  | [] => d
  | (k, v) :: rest => setFields (dset d k v) rest

/-- `collection.update_one({"_id": ObjectId(oid)}, {"$set": fs})`:
applies `fs` to the first matching document. -/
def updateFirstById : List PyDict → String → PyDict → List PyDict
  | [], _, _ => []
  | d :: rest, oid, fs =>
      if dget d "_id" == some (.vOid oid) then setFields d fs :: rest
      else d :: updateFirstById rest oid fs

/-! ### The filter query model (`_build_filter_query` and its semantics) -/

/-- One Mongo condition as produced by `_build_filter_query`:
an equality value, an `{"$all": [...]}` list, a case-insensitive
`{"$regex": p, "$options": "i"}` pattern, or a `$gte`/`$lte` date range. -/
inductive QueryCond where
  | eqStr : String → QueryCond
  | all : List String → QueryCond
  | regexI : String → QueryCond
  | dateRange : Option Nat → Option Nat → QueryCond
deriving Repr, DecidableEq

/-- The filter dict: field path → condition. -/
abbrev FilterQuery := List (String × QueryCond)

/-- Split a character list at every occurrence of `sep` (Python
`s.split(sep)` for a one-character separator; no collapsing of empty
pieces). -/
def splitOnCharAux (sep : Char) : List Char → List Char → List String
  | [], acc => [String.mk acc.reverse]
  | c :: cs, acc =>
      if c = sep then String.mk acc.reverse :: splitOnCharAux sep cs []
      else splitOnCharAux sep cs (c :: acc)

def splitOnChar (sep : Char) (s : String) : List String :=
  splitOnCharAux sep s.toList []

/-- Python `s.strip()`: drop leading and trailing whitespace. -/
def pyStrip (s : String) : String :=
  String.mk (((s.toList.dropWhile Char.isWhitespace).reverse.dropWhile Char.isWhitespace).reverse)

/-- Mongo dotted-path resolution (`"location.country"`). -/
def lookupPathAux : Value → List String → Option Value
  | v, [] => some v
  | .vDict kvs, k :: rest =>
      match dget kvs k with
      | some v' => lookupPathAux v' rest
      | none => none
  | _, _ :: _ => none

def lookupPath (d : PyDict) (path : String) : Option Value :=
  lookupPathAux (.vDict d) (splitOnChar '.' path)

/-- Python `sub in s` substring test (`"" in s` is `True`). -/
def strContains (hay sub : String) : Bool :=
  sub.isEmpty || (hay.splitOn sub).length > 1

/-- Case-insensitive substring match: the semantics of
`{"$regex": p, "$options": "i"}` for the literal (metacharacter-free)
patterns this service passes. -/
def strContainsCI (hay pat : String) : Bool :=
  strContains hay.toLower pat.toLower

/-- Whether one document field satisfies one condition.  A missing field
satisfies none of the produced conditions (the builder never emits an
equality against `null` or an empty `$all`, and `$all` documents here store
their violation types as lists). -/
def evalCond (doc : PyDict) (k : String) (c : QueryCond) : Bool :=
  match c, lookupPath doc k with
  | .eqStr s, some w => w == Value.vStr s
  | .all ts, some (.vList xs) => !ts.isEmpty && ts.all (fun t => xs.contains (.vStr t))
  | .regexI p, some (.vStr s) => strContainsCI s p
  | .dateRange lo hi, some (.vDT t) =>
      (match lo with | some l => decide (l ≤ t) | none => true)
        && (match hi with | some h => decide (t ≤ h) | none => true)
  | _, _ => false

/-- A document matches a filter query iff it satisfies every condition. -/
def matchesQuery (doc : PyDict) (q : FilterQuery) : Bool :=
  q.all (fun p => evalCond doc p.1 p.2)

/-- Python truthiness of an optional string (`if violation_types:` etc.). -/
def strTruthy : Option String → Bool
  | some s => !s.isEmpty
  | none => false

/-- `[vt.strip() for vt in violation_types.split(',') if vt.strip()]`. -/
def splitTypes (s : String) : List String :=
  ((splitOnChar ',' s).map pyStrip).filter (fun t => !t.isEmpty)

/-- `date_to.replace(hour=23, minute=59, second=59)` on a
seconds-since-epoch timestamp. -/
def endOfDay (t : Nat) : Nat := t / 86400 * 86400 + 86399

/-- `CaseService._build_filter_query` (case_service.py lines 86-135):
builds the Mongo filter dict from the optional filter fields, adding a
constraint only for each present (truthy) field. -/
def buildFilterQuery (violation_types country region status priority search : Option String)
    (date_from date_to : Option Nat) : FilterQuery :=
  let q : FilterQuery := []
  let q := if strTruthy violation_types then
      let ts := splitTypes (violation_types.getD "")
      if !ts.isEmpty then q ++ [("violation_types", QueryCond.all ts)] else q
    else q
  let q := if strTruthy country then
      q ++ [("location.country", QueryCond.regexI (country.getD ""))] else q
  let q := if strTruthy region then
      q ++ [("location.region", QueryCond.regexI (region.getD ""))] else q
  let q := if strTruthy status then
      q ++ [("status", QueryCond.eqStr (status.getD ""))] else q
  let q := if strTruthy priority then
      q ++ [("priority", QueryCond.eqStr (priority.getD ""))] else q
  let q := if strTruthy search then
      q ++ [("title", QueryCond.regexI (search.getD ""))] else q
  let q := if date_from.isSome || date_to.isSome then
      q ++ [("created_at", QueryCond.dateRange date_from (date_to.map endOfDay))] else q
  q

/-- The `{cases, total_count, returned_count}` dict returned by
`CaseService._query_cases_with_pagination`. -/
structure QueryResult where
  cases : List Value
  total_count : Nat
  returned_count : Nat
deriving Repr, DecidableEq

/-- `CaseService._query_cases_with_pagination`: page the matching documents
with `skip`/`limit` (Mongo `limit(0)` means no limit), serialize them, and
count all matches. -/
def queryCasesWithPagination (coll : List PyDict) (q : FilterQuery) (skip limit : Nat) :
    QueryResult :=
  let matching := coll.filter (fun d => matchesQuery d q)
  let page := if limit == 0 then matching.drop skip else (matching.drop skip).take limit
  { cases := page.map serializeCase
    total_count := matching.length
    returned_count := page.length }

/-! ### CaseService -/

/-- `CaseService._process_object_id_array` (lines 15-33): wraps a non-list
into a singleton list, converts valid ObjectId strings, keeps ObjectIds,
and raises `ValueError` on anything else (including invalid id strings). -/
def processObjectIdArray (v : Value) (fieldName : String) : Except PyError (List Value) :=
  let items := match v with
    | .vList xs => xs
    | x => [x]
  items.mapM (fun item =>
    match item with
    | .vStr s =>
        if oidValid s then Except.ok (Value.vOid s)
        else .error (.valueError ("Invalid ObjectId format in " ++ fieldName))
    | .vOid s => .ok (.vOid s)
    | _ => .error (.valueError ("Invalid ObjectId format in " ++ fieldName)))

/-- `CaseService._validate_case_id` (lines 35-39): `ValueError` on a
malformed id. -/
def validateCaseId (caseId : String) : Except PyError Unit :=
  if oidValid caseId then .ok () else .error (.valueError "Invalid case ID format")

/-- `CaseService._find_case_by_id` (lines 55-58): `ObjectId(case_id)` (which
raises `InvalidId`, not `ValueError`, on a malformed id — there is no
`_validate_case_id` call on this path), then `find_one` and serialize. -/
def findCaseById (coll : List PyDict) (caseId : String) : Except PyError (Option Value) :=
  match mkObjectId caseId with
  | .error e => .error e
  | .ok oid => .ok ((findOneById coll oid).map serializeCase)

/-- `CaseService.get_case_by_id` (lines 183-188): the `try/except` only logs
and re-raises. -/
def getCaseById (db : DB) (caseId : String) : Except PyError (Option Value) :=
  findCaseById db.cases caseId

/-- `CaseService.get_archived_case_by_id` (lines 415-421). -/
def getArchivedCaseById (db : DB) (caseId : String) : Except PyError (Option Value) :=
  findCaseById db.archived caseId

/-- `CaseService._move_case_between_collections` (lines 60-84): validate the
id, look the case up in the source collection (returning `false` when it is
absent), insert it into the target, then delete it from the source; if that
delete reports `deleted_count == 0` (the document disappeared between the
two steps — modelled by the `interference` flag removing it after the
insert), delete the just-inserted target copy and return `false`. -/
def moveCase (src tgt : List PyDict) (caseId : String) (interference : Bool) :
    Except PyError (Bool × List PyDict × List PyDict) :=
  match validateCaseId caseId with
  | .error e => .error e
  | .ok _ =>
    match findOneById src caseId with
    | none => .ok (false, src, tgt)
    | some doc =>
      let tgt1 := tgt ++ [doc]
      let src1 := if interference then eraseFirstById src caseId else src
      let (src2, n) := deleteOneById src1 caseId
      if n == 0 then .ok (false, src2, eraseFirstById tgt1 caseId)
      else .ok (true, src2, tgt1)

/-- `CaseService.archive_case` (lines 382-392). -/
def archiveCase (db : DB) (caseId : String) (interference : Bool) :
    Except PyError (Bool × DB) :=
  match moveCase db.cases db.archived caseId interference with
  | .error e => .error e
  | .ok (b, src, tgt) => .ok (b, { db with cases := src, archived := tgt })

/-- `CaseService.restore_case` (lines 423-434). -/
def restoreCase (db : DB) (caseId : String) (interference : Bool) :
    Except PyError (Bool × DB) :=
  match moveCase db.archived db.cases caseId interference with
  | .error e => .error e
  | .ok (b, src, tgt) => .ok (b, { db with archived := src, cases := tgt })

/-- `CaseService.build_case_history_entry` (lines 253-258):
`{"status": ..., "updated_at": now, "updated_by": ObjectId(updated_by) if
isinstance(updated_by, str) else updated_by}`. -/
def buildCaseHistoryEntry (status updatedBy : Value) (now : Nat) : Except PyError PyDict :=
  match updatedBy with
  | .vStr s =>
      match mkObjectId s with
      | .error e => .error e
      | .ok oid => .ok [("status", status), ("updated_at", .vDT now), ("updated_by", .vOid oid)]
  | v => .ok [("status", status), ("updated_at", .vDT now), ("updated_by", v)]

/-- `for field in required_fields: if field not in case_data or not
case_data[field]: raise ValueError(...)` (lines 193-199). -/
def checkRequired (d : PyDict) : List String → Except PyError Unit
  | [] => .ok ()
  | f :: rest =>
      if !dhas d f || !(pyGet d f).isTruthy then
        .error (.valueError ("Missing required field: " ++ f))
      else checkRequired d rest

def requiredFields : List String :=
  ["title", "description", "violation_types", "priority", "location"]

/-- Python `k in v` for the `"country" not in case_data["location"]` check
(line 200): key membership for dicts, substring for strings, element
membership for lists, `TypeError` otherwise. -/
def pyInKey (k : String) : Value → Except PyError Bool
  | .vDict kvs => .ok (dhas kvs k)
  | .vStr s => .ok (strContains s k)
  | .vList xs => .ok (xs.contains (.vStr k))
  | _ => .error (.typeError "argument of type is not iterable")

/-- Python iteration (`for r in x`) over the shapes that can reach the id
list comprehensions: lists yield elements, strings yield one-character
strings, dicts yield keys; other values raise `TypeError`. -/
def pyIter : Value → Except PyError (List Value)
  | .vList xs => .ok xs
  | .vStr s => .ok (s.toList.map (fun c => .vStr c.toString))
  | .vDict kvs => .ok (kvs.map (fun p => .vStr p.1))
  | _ => .error (.typeError "object is not iterable")

/-- `[ObjectId(r) if isinstance(r, str) else r for r in xs]` (create_case
lines 206-215): converts string entries with `ObjectId` (raising
`InvalidId` on malformed strings) and keeps everything else as-is. -/
def convertIdList (v : Value) : Except PyError Value :=
  match pyIter v with
  | .error e => .error e
  | .ok items =>
    match items.mapM (fun r =>
        (match r with
        | .vStr s =>
            match mkObjectId s with
            | .error e => .error e
            | .ok oid => .ok (Value.vOid oid)
        | other => .ok other : Except PyError Value)) with
    | .error e => .error e
    | .ok ys => .ok (.vList ys)

/-- The generated human-readable identifier
`HRM-{year}-{4000+number_of_cases+number_of_archived_cases+1}`
(lines 224-227). -/
def hrmIdOf (db : DB) (year : Nat) : String :=
  "HRM-" ++ toString year ++ "-" ++ toString (4000 + db.cases.length + db.archived.length + 1)

/-- `CaseService.create_case` (lines 190-250).  `now` models
`datetime.utcnow()`, `year` its year, and `newOid` the `_id` the storage
layer assigns on insert (used only when the payload carries no `_id`). -/
def createCase (db : DB) (caseData : PyDict) (now : Nat) (year : Nat) (newOid : String) :
    Except PyError (Option Value × DB) :=
  -- required-field loop (lines 193-199)
  match checkRequired caseData requiredFields with
  | .error e => .error e
  | .ok _ =>
  -- `if "country" not in case_data["location"]` (lines 200-201)
  match pyInKey "country" (pyGet caseData "location") with
  | .error e => .error e
  | .ok hasCountry =>
  if !hasCountry then .error (.valueError "Missing required field: location.country")
  else
  -- `case_data["created_by"]` (line 204) raises KeyError when absent
  match dget caseData "created_by" with
  | none => .error (.keyError "created_by")
  | some cb =>
  match (match cb with
         | .vStr s =>
             match mkObjectId s with
             | .error e => Except.error e
             | .ok oid => .ok (Value.vOid oid)
         | other => .ok other) with
  | .error e => .error e
  | .ok cb' =>
  let d1 := dset caseData "created_by" cb'
  -- `source_reports` / `victims` conversions (lines 206-215)
  match (match dget d1 "source_reports" with
         | some v =>
             match convertIdList v with
             | .error e => Except.error e
             | .ok v' => .ok (dset d1 "source_reports" v')
         | none => .ok d1) with
  | .error e => .error e
  | .ok d2 =>
  match (match dget d2 "victims" with
         | some v =>
             match convertIdList v with
             | .error e => Except.error e
             | .ok v' => .ok (dset d2 "victims" v')
         | none => .ok d2) with
  | .error e => .error e
  | .ok d3 =>
  -- `setdefault` timestamps (lines 219-221)
  let d4 := if dhas d3 "created_at" then d3 else dset d3 "created_at" (.vDT now)
  let d5 := if dhas d4 "updated_at" then d4 else dset d4 "updated_at" (.vDT now)
  -- generated case_id (lines 224-228) and forced status (line 230)
  let hrm := hrmIdOf db year
  let d6 := dset d5 "case_id" (.vStr hrm)
  let d7 := dset d6 "status" (.vStr "new")
  -- `insert_one` assigns an `_id` unless the payload supplied one (line 232)
  let doc := if dhas d7 "_id" then d7 else dset d7 "_id" (.vOid newOid)
  let insertedId := strOfValue (pyGet doc "_id")
  -- initial status-history document (lines 236-243)
  match buildCaseHistoryEntry (.vStr "new") (pyGet d7 "created_by") now with
  | .error e => .error e
  | .ok entry =>
  let histDoc : PyDict := [("case_id", .vStr hrm), ("history", .vList [.vDict entry])]
  let db' : DB := { db with
    cases := db.cases ++ [doc]
    statusHistory := db.statusHistory ++ [histDoc] }
  -- `return self.get_case_by_id(inserted_case_id)` (line 246)
  match getCaseById db' insertedId with
  | .error e => .error e
  | .ok c => .ok (c, db')

/-- The per-entry conversion in `get_case_status_history` (lines 270-272):
`if "updated_by" in entry and isinstance(entry["updated_by"], ObjectId):
entry["updated_by"] = str(entry["updated_by"])`. -/
def stringifyUpdatedBy (e : Value) : Value :=
  match e with
  | .vDict kvs =>
      match dget kvs "updated_by" with
      | some (.vOid s) => .vDict (dset kvs "updated_by" (.vStr s))
      | _ => .vDict kvs
  | other => other

/-- `CaseService.get_case_status_history` (lines 260-277): find the ledger
by human-readable case id, stringify each entry's `updated_by` ObjectId,
and return the `history` list (empty when no ledger exists). -/
def getCaseStatusHistory (db : DB) (caseId : String) : List Value :=
  match db.statusHistory.find? (fun d => dget d "case_id" == some (.vStr caseId)) with
  | none => []
  | some h =>
    match dget h "history" with
    | some (.vList entries) => entries.map stringifyUpdatedBy
    | _ => []

/-- The validation prefix of `CaseService.update_case` (lines 282-293), in
source order: id format, non-empty payload, and the
`if "status" in update_data: if not update_data["updated_by"]` check —
`update_data["updated_by"]` raises `KeyError` when the key is absent, and
the intended `ValueError` fires only when the key is present but falsy. -/
def checkUpdatePre (caseId : String) (upd : PyDict) : Option PyError :=
  if !oidValid caseId then some (.valueError "Invalid case ID format")
  else if upd.isEmpty then some (.valueError "No fields provided for update")
  else if dhas upd "status" then
    match dget upd "updated_by" with
    | none => some (.keyError "updated_by")
    | some v => if !v.isTruthy then some (.valueError "updated_by is required when updating status.") else none
  else none

/-- The `victims` processing of `update_case` (lines 301-310). -/
def victimsField (upd : PyDict) : Except PyError PyDict :=
  match dget upd "victims" with
  | some v =>
      match processObjectIdArray v "victims" with
      | .error e => .error e
      | .ok xs => .ok [("victims", Value.vList xs)]
  | none => .ok []

/-- The `source_reports` processing of `update_case` (lines 313-321). -/
def sourceReportsField (upd : PyDict) : Except PyError PyDict :=
  match dget upd "source_reports" with
  | some v =>
      match processObjectIdArray v "source_reports" with
      | .error e => .error e
      | .ok xs => .ok [("source_reports", Value.vList xs)]
  | none => .ok []

/-- The `status` copy of `update_case` (lines 324-325). -/
def statusField (upd : PyDict) : PyDict :=
  match dget upd "status" with
  | some s => [("status", s)]
  | none => []

/-- The `updated_by` validation/conversion of `update_case` (lines
332-345): skipped when absent or falsy
(`if update_data.get("updated_by"):`), converted when it passes
`ObjectId.is_valid`, and a `ValueError` otherwise. -/
def updatedByField (upd : PyDict) : Except PyError PyDict :=
  match dget upd "updated_by" with
  | some v =>
      if v.isTruthy then
        if oidIsValidValue v then .ok [("updated_by", toObjectIdVal v)]
        else .error (.valueError "Invalid ObjectId format for updated_by parameter")
      else .ok []
  | none => .ok []

/-- The `fields_to_set` construction of `update_case` (lines 301-345):
`victims`, `source_reports`, `status`, the unconditional `updated_at`
stamp, and the validated `updated_by`, in source order. -/
def buildFieldsToSet (upd : PyDict) (now : Nat) : Except PyError PyDict :=
  match victimsField upd with
  | .error e => .error e
  | .ok f1 =>
  match sourceReportsField upd with
  | .error e => .error e
  | .ok f2 =>
  match updatedByField upd with
  | .error e => .error e
  | .ok f5 => .ok (f1 ++ f2 ++ statusField upd ++ [("updated_at", .vDT now)] ++ f5)

/-- `$push` with `upsert=True` on
`case_status_history.update_one({"case_id": cid}, ...)` (lines 361-365):
appends to the first ledger whose `case_id` matches, or creates a fresh
ledger document when none does. -/
def pushHistoryEntry : List PyDict → Value → PyDict → List PyDict
  | [], cid, entry => [[("case_id", cid), ("history", .vList [.vDict entry])]]
  | h :: rest, cid, entry =>
      if dget h "case_id" == some cid then
        let old := match dget h "history" with
          | some (.vList xs) => xs
          | _ => []
        dset h "history" (.vList (old ++ [.vDict entry])) :: rest
      else h :: pushHistoryEntry rest cid entry

/-- The history side effect of `update_case` (lines 357-365): only when the
payload carries a `status` different from the stored one
(`update_data["status"] != existing_case.get("status")`). -/
def maybePushHistory (db : DB) (upd existing : PyDict) (now : Nat) : Except PyError DB :=
  match dget upd "status" with
  | some newSt =>
      if newSt ≠ pyGet existing "status" then
        match buildCaseHistoryEntry newSt (pyGet upd "updated_by") now with
        | .error e => .error e
        | .ok entry =>
            .ok { db with statusHistory := pushHistoryEntry db.statusHistory (pyGet existing "case_id") entry }
      else .ok db
  | none => .ok db

/-- `CaseService.update_case` (lines 279-380): validation prefix, existence
check (raising `ValueError("Case not found")`), `fields_to_set`
construction, the `$set` write, the conditional history push, and the
re-read return value (the `modified_count == 0` branch returns the same
re-read, so it is not distinguished here). -/
def updateCase (db : DB) (caseId : String) (upd : PyDict) (now : Nat) :
    Except PyError (Option Value × DB) :=
  match checkUpdatePre caseId upd with
  | some e => .error e
  | none =>
  match findOneById db.cases caseId with
  | none => .error (.valueError "Case not found")
  | some existing =>
  match buildFieldsToSet upd now with
  | .error e => .error e
  | .ok fs =>
  -- `if not fields_to_set:` (line 348) — unreachable: `updated_at` is always set
  if fs.isEmpty then
    match getCaseById db caseId with
    | .error e => .error e
    | .ok c => .ok (c, db)
  else
  let db1 : DB := { db with cases := updateFirstById db.cases caseId fs }
  match maybePushHistory db1 upd existing now with
  | .error e => .error e
  | .ok db2 =>
  match getCaseById db2 caseId with
  | .error e => .error e
  | .ok c => .ok (c, db2)

/-- `CaseService.get_cases` (lines 158-180). -/
def getCases (db : DB) (violation_types country region status priority search : Option String)
    (date_from date_to : Option Nat) (skip limit : Nat) : QueryResult :=
  queryCasesWithPagination db.cases
    (buildFilterQuery violation_types country region status priority search date_from date_to)
    skip limit

/-- `CaseService.get_archived_cases` (lines 394-413).  The source invokes
`self._build_filter_query(violation_types, country, region, date_from,
date_to)` with five positional arguments, but `_build_filter_query`
requires eight parameters with no defaults: Python binds `date_from` to the
`status` parameter and `date_to` to `priority`, finds `search`,
`date_from` and `date_to` unbound, and raises `TypeError` before the
builder body runs — so this method always fails. -/
def getArchivedCases (db : DB) (violation_types country region : Option String)
    (date_from date_to : Option Nat) (skip limit : Nat) : Except PyError QueryResult :=
  .error (.typeError
    "_build_filter_query() missing 3 required positional arguments: 'search', 'date_from', and 'date_to'")

/-! ### Router layer (app/routers/cases.py) and pagination envelope -/

/-- The HTTP outcome of one request, as produced by the route handlers'
`except ValueError → 400` / `except Exception → 500` clauses and the
`handle_not_found` helper (`404`). -/
inductive HTTPResult where
  | ok200 : HTTPResult
  | badRequest400 : String → HTTPResult
  | notFound404 : String → HTTPResult
  | serverError500 : HTTPResult
deriving Repr, DecidableEq

/-- Which status code a raised exception maps to in every handler of
cases.py: `ValueError` → 400, anything else (including `KeyError`,
`TypeError` and `bson.errors.InvalidId`) → 500. -/
def errorToHTTP : PyError → HTTPResult
  | .valueError m => .badRequest400 m
  | _ => .serverError500

/-- `GET /cases/{case_id}` (cases.py lines 114-138). -/
def routeGetCase (db : DB) (caseId : String) : HTTPResult :=
  match getCaseById db caseId with
  | .error e => errorToHTTP e
  | .ok none => .notFound404 "Case"
  | .ok (some _) => .ok200

/-- `POST /cases/` (cases.py lines 89-112). -/
def routeCreateCase (db : DB) (caseData : PyDict) (now year : Nat) (newOid : String) :
    HTTPResult :=
  match createCase db caseData now year newOid with
  | .error e => errorToHTTP e
  | .ok _ => .ok200

/-- `PATCH /cases/{case_id}` (cases.py lines 140-166): `handle_not_found`
fires only when the service returns a falsy case. -/
def routeUpdateCase (db : DB) (caseId : String) (caseData : PyDict) (now : Nat) :
    HTTPResult :=
  match updateCase db caseId caseData now with
  | .error e => errorToHTTP e
  | .ok (none, _) => .notFound404 "Case"
  | .ok (some _, _) => .ok200

/-- `DELETE /cases/{case_id}` (cases.py lines 168-192). -/
def routeDeleteCase (db : DB) (caseId : String) (interference : Bool) : HTTPResult :=
  match archiveCase db caseId interference with
  | .error e => errorToHTTP e
  | .ok (false, _) => .notFound404 "Case"
  | .ok (true, _) => .ok200

/-- The `CaseFilters` request model (schemas/case_schema.py lines 5-15). -/
structure CaseFilters where
  violation_types : Option String := none
  status : Option String := none
  country : Option String := none
  region : Option String := none
  priority : Option String := none
  search : Option String := none
  date_from : Option String := none
  date_to : Option String := none
  skip : Nat := 0
  limit : Nat := 100
deriving Repr, DecidableEq

/-- The `pagination` block of `build_paginated_response`
(utils/case_response.py lines 14-21). -/
structure Pagination where
  total_count : Nat
  current_skip : Nat
  current_limit : Nat
  returned_count : Nat
  has_next : Bool
  has_prev : Bool
deriving Repr, DecidableEq

/-- The full envelope of `build_paginated_response`
(utils/case_response.py lines 3-32). -/
structure PaginatedResponse where
  cases : List Value
  pagination : Pagination
  filters_applied : List (String × Option String)
deriving Repr, DecidableEq

/-- `build_paginated_response` (utils/case_response.py lines 3-32). -/
def buildPaginatedResponse (data : QueryResult) (filters : CaseFilters) : PaginatedResponse :=
  let total_count := data.total_count
  let skip := filters.skip
  let limit := filters.limit
  { cases := data.cases
    pagination :=
      { total_count := total_count
        current_skip := skip
        current_limit := limit
        returned_count := data.returned_count
        has_next := decide (skip + limit < total_count)
        has_prev := decide (0 < skip) }
    filters_applied :=
      [("violation_types", filters.violation_types),
       ("country", filters.country),
       ("region", filters.region),
       ("priority", filters.priority),
       ("status", filters.status),
       ("search", filters.search),
       ("date_from", filters.date_from),
       ("date_to", filters.date_to)] }

/-- `GET /cases/archive/` (cases.py lines 222-245).  The shared
`get_cases_with_filters` helper forwards `status=`, `priority=` and
`search=` keyword arguments, but `get_archived_cases` accepts no such
parameters: Python raises `TypeError` at the call, the handler's generic
`except Exception` catches it, and the route answers 500 — for every
filter object. -/
def routeListArchivedCases (db : DB) (filters : CaseFilters) : HTTPResult :=
  errorToHTTP (.typeError
    "get_archived_cases() got an unexpected keyword argument 'status'")

/-! ### Specification-side definitions used by the claims -/

/-- The keys bound by a field list. -/
def keysOf (fs : PyDict) : List String := fs.map Prod.fst

/-- The five document fields `update_case` can write. -/
def updatableFields : List String :=
  ["victims", "source_reports", "status", "updated_by", "updated_at"]

/-- The `status` value recorded in a history entry. -/
def entryStatus (e : Value) : Value :=
  match e with
  | .vDict kvs => pyGet kvs "status"
  | _ => .vNone

/-- The raw `history` array of a ledger document. -/
def histRaw (h : PyDict) : List Value :=
  match dget h "history" with
  | some (.vList entries) => entries
  | _ => []

/-- The statuses recorded in a ledger document, in order. -/
def histStatuses (h : PyDict) : List Value :=
  (histRaw h).map entryStatus

/-- Run a sequence of `(payload, timestamp)` updates against one case,
stopping at the first failure. -/
def applyUpdates (db : DB) (caseId : String) : List (PyDict × Nat) → Except PyError DB
  | [] => .ok db
  | (u, t) :: rest =>
      match updateCase db caseId u t with
      | .error e => .error e
      | .ok (_, db') => applyUpdates db' caseId rest

/-- The statuses a sequence of updates appends to the ledger, starting from
current status `cur`: an update contributes its supplied `status` exactly
when that value differs from the status stored at the time of the update. -/
def statusChanges (cur : Value) : List (PyDict × Nat) → List Value
  | [] => []
  | (u, _) :: rest =>
      match dget u "status" with
      | some s => if s ≠ cur then s :: statusChanges s rest else statusChanges cur rest
      | none => statusChanges cur rest

/-- The first required field of `create_case` that is absent or falsy, the
checks taken in source order; `location.country` only covers a present
location dict lacking the `country` key (a present-but-empty country
string is not reported — see the C9 counterexample). -/
def firstMissingField (p : PyDict) : Option String :=
  match requiredFields.find? (fun f => !dhas p f || !(pyGet p f).isTruthy) with
  | some f => some f
  | none =>
      match pyGet p "location" with
      | .vDict kvs => if dhas kvs "country" then none else some "location.country"
      | _ => none

/-! ### Concrete inputs used by counterexamples and witnesses -/

/-- A well-formed 24-hex-digit ObjectId string. -/
def oidA : String := "0123456789abcdef01234567"

/-- Another well-formed ObjectId string. -/
def oidB : String := "abcdefabcdefabcdefabcdef"

/-- A creation payload whose `location.country` is present but empty. -/
def payloadEmptyCountry : PyDict :=
  [("title", .vStr "T"), ("description", .vStr "D"),
   ("violation_types", .vList [.vStr "war_crimes"]),
   ("priority", .vStr "high"),
   ("location", .vDict [("country", .vStr "")]),
   ("created_by", .vStr "0123456789abcdef01234567")]

/-- A fully valid creation payload whose `created_by` is malformed. -/
def payloadBadCreatedBy : PyDict :=
  [("title", .vStr "T"), ("description", .vStr "D"),
   ("violation_types", .vList [.vStr "war_crimes"]),
   ("priority", .vStr "high"),
   ("location", .vDict [("country", .vStr "X")]),
   ("created_by", .vStr "not-an-objectid")]

/-- A fully valid creation payload that also supplies its own `status`. -/
def payloadWithStatus : PyDict :=
  [("title", .vStr "T"), ("description", .vStr "D"),
   ("violation_types", .vList [.vStr "war_crimes"]),
   ("priority", .vStr "high"), ("status", .vStr "closed"),
   ("location", .vDict [("country", .vStr "X")]),
   ("created_by", .vStr "0123456789abcdef01234567")]

/-- The create-then-update run used to witness the ledger claim. -/
def c6CreateResult : Except PyError (Option Value × DB) :=
  createCase emptyDB payloadWithStatus 100 2024 oidB

def c6ReturnedCase : Option Value :=
  match c6CreateResult with
  | .ok (c, _) => c
  | .error _ => none

def c6Db1 : DB :=
  match c6CreateResult with
  | .ok (_, db) => db
  | .error _ => emptyDB

def c6Upds : List (PyDict × Nat) :=
  [([("status", Value.vStr "under_investigation"),
     ("updated_by", Value.vStr "0123456789abcdef01234567")], 200)]

def c6Db2 : DB :=
  match applyUpdates c6Db1 oidB c6Upds with
  | .ok db => db
  | .error _ => emptyDB

/-! ### Basic lemmas about the dict and collection primitives -/

theorem dget_nil (k : String) : dget [] k = none := rfl

theorem dget_cons (p : String × Value) (rest : PyDict) (k : String) :
    dget (p :: rest) k = if p.1 = k then some p.2 else dget rest k := by
  simp only [dget, List.find?]
  by_cases h : p.1 = k
  · simp [h]
  · have hb : (p.1 == k) = false := by simp [h]
    rw [hb, if_neg h]

theorem dget_append (d1 d2 : PyDict) (k : String) :
    dget (d1 ++ d2) k = ((dget d1 k).or (dget d2 k)) := by
  simp only [dget, List.find?_append]
  cases d1.find? (fun p => p.1 == k) <;> simp

theorem dget_map_replace (d : PyDict) (k : String) (v : Value) (k' : String) :
    dget (d.map (fun p => if p.1 == k then (k, v) else p)) k'
      = if k' = k then (if dhas d k then some v else none) else dget d k' := by
  induction d with
  | nil => simp [dget, dhas]
  | cons p rest ih =>
    by_cases hp : p.1 = k
    · have hdh : dhas (p :: rest) k = true := by
        simp [dhas, dget_cons, hp]
      rw [List.map_cons, if_pos (by simp [hp]), hdh]
      by_cases hk' : k' = k
      · subst hk'; simp [dget_cons]
      · rw [if_neg hk', dget_cons, dget_cons,
          if_neg (show ¬((k, v).1 = k') from fun hh => hk' hh.symm),
          if_neg (show ¬(p.1 = k') from fun hh => hk' (hh.symm.trans hp)), ih]
        rw [if_neg hk']
    · have hdh : dhas (p :: rest) k = dhas rest k := by
        simp [dhas, dget_cons, hp]
      rw [List.map_cons, if_neg (by simp [hp]), hdh]
      by_cases hk' : k' = k
      · subst hk'; rw [if_pos rfl, dget_cons, if_neg hp, ih, if_pos rfl]
      · rw [if_neg hk', dget_cons, dget_cons, ih, if_neg hk']

theorem dget_dset (d : PyDict) (k : String) (v : Value) (k' : String) :
    dget (dset d k v) k' = if k' = k then some v else dget d k' := by
  unfold dset
  split
  · rename_i hhas
    rw [dget_map_replace, hhas]
    simp
  · rename_i hhas
    rw [dget_append]
    by_cases hk' : k' = k
    · subst hk'
      have hnone : dget d k' = none := by
        cases h : dget d k' with
        | none => rfl
        | some w => exact absurd (by simp [dhas, h]) hhas
      rw [hnone, if_pos rfl, dget_cons, if_pos rfl]
      rfl
    · rw [if_neg hk']
      cases h : dget d k' with
      | some w => simp
      | none =>
        rw [dget_cons, if_neg (fun hh => hk' hh.symm), dget_nil]
        rfl

theorem dhas_dset (d : PyDict) (k : String) (v : Value) (k' : String) :
    dhas (dset d k v) k' = (k' = k || dhas d k') := by
  simp only [dhas, dget_dset]
  by_cases h : k' = k <;> simp [h]

theorem pyGet_dset (d : PyDict) (k : String) (v : Value) (k' : String) :
    pyGet (dset d k v) k' = if k' = k then v else pyGet d k' := by
  simp only [pyGet, dget_dset]
  by_cases h : k' = k <;> simp [h]

theorem dget_of_keys_not_mem (fs : PyDict) (k : String) (h : k ∉ keysOf fs) :
    dget fs k = none := by
  simp only [dget]
  rw [List.find?_eq_none.mpr]
  intro p hp
  simp only [beq_iff_eq]
  intro hk
  exact h (hk ▸ List.mem_map_of_mem Prod.fst hp)

theorem dget_setFields (d : PyDict) (fs : PyDict) (k : String) :
    dget (setFields d fs)  k
      = match fs.reverse.find? (fun p => p.1 == k) with
        | some p => some p.2
        | none => dget d k := by
  induction fs generalizing d with
  | nil => simp [setFields]
  | cons p rest ih =>
    rw [setFields, ih, List.reverse_cons, List.find?_append]
    cases h : rest.reverse.find? (fun q => q.1 == k) with
    | some q => simp [Option.or]
    | none =>
      simp only [Option.or_none, Option.none_or]
      cases p with
      | mk a b =>
        simp only [List.find?]
        by_cases hak : a = k
        · simp [hak, dget_dset]
        · have hb : (a == k) = false := by simp [hak]
          rw [hb, dget_dset, if_neg (fun hh => hak hh.symm)]

theorem dget_setFields_not_mem (d : PyDict) (fs : PyDict) (k : String)
    (h : k ∉ keysOf fs) : dget (setFields d fs) k = dget d k := by
  rw [dget_setFields]
  have : fs.reverse.find? (fun p => p.1 == k) = none := by
    rw [List.find?_eq_none]
    intro p hp
    simp only [beq_iff_eq]
    intro hk
    exact h (hk ▸ List.mem_map_of_mem Prod.fst (List.mem_reverse.mp hp))
  rw [this]

/-! ### Collection-level lemmas -/

theorem findOneById_eq_none_iff (coll : List PyDict) (oid : String) :
    findOneById coll oid = none ↔ ∀ d ∈ coll, ¬ dget d "_id" = some (.vOid oid) := by
  unfold findOneById
  rw [List.find?_eq_none]
  constructor
  · intro h d hd
    have := h d hd
    simpa using this
  · intro h d hd
    simpa using h d hd

theorem eraseFirstById_append_of_none (tgt : List PyDict) (doc : PyDict) (oid : String)
    (htgt : findOneById tgt oid = none)
    (hdoc : dget doc "_id" = some (.vOid oid)) :
    eraseFirstById (tgt ++ [doc]) oid = tgt := by
  induction tgt with
  | nil => simp [eraseFirstById, hdoc]
  | cons t rest ih =>
    have hne : ¬ dget t "_id" = some (.vOid oid) :=
      (findOneById_eq_none_iff _ _).mp htgt t (List.mem_cons_self t rest)
    have hrest : findOneById rest oid = none := by
      rw [findOneById_eq_none_iff]
      intro d hd
      exact (findOneById_eq_none_iff _ _).mp htgt d (List.mem_cons_of_mem t hd)
    rw [List.cons_append, eraseFirstById, if_neg (by simpa using hne), ih hrest]

theorem updateFirstById_map_dget (coll : List PyDict) (oid : String) (fs : PyDict)
    (k : String) (h : k ∉ keysOf fs) :
    (updateFirstById coll oid fs).map (fun d => dget d k) = coll.map (fun d => dget d k) := by
  induction coll with
  | nil => rfl
  | cons d rest ih =>
    rw [updateFirstById]
    split
    · rw [List.map_cons, List.map_cons, dget_setFields_not_mem d fs k h]
    · rw [List.map_cons, List.map_cons, ih]

theorem findOneById_updateFirstById (coll : List PyDict) (oid : String) (fs : PyDict)
    (h : "_id" ∉ keysOf fs) :
    findOneById (updateFirstById coll oid fs) oid
      = (findOneById coll oid).map (fun d => setFields d fs) := by
  induction coll with
  | nil => rfl
  | cons d rest ih =>
    rw [updateFirstById]
    split
    · rename_i hd
      unfold findOneById List.find?
      have hd' : dget (setFields d fs) "_id" = dget d "_id" :=
        dget_setFields_not_mem d fs "_id" h
      rw [hd', hd]
      simp only [cond_true]
      have : dget d "_id" = some (.vOid oid) := by simpa using hd
      simp [this]
    · rename_i hd
      unfold findOneById List.find?
      have hb : (dget d "_id" == some (Value.vOid oid)) = false := by
        simpa using hd
      rw [hb]
      simp only [cond_false]
      exact ih

/-! ### checkRequired lemmas -/

theorem checkRequired_eq_error_of_find (p : PyDict) (fs : List String) (f : String)
    (h : fs.find? (fun g => !dhas p g || !(pyGet p g).isTruthy) = some f) :
    checkRequired p fs = .error (.valueError ("Missing required field: " ++ f)) := by
  induction fs with
  | nil => simp [List.find?] at h
  | cons g rest ih =>
    rw [checkRequired]
    unfold List.find? at h
    by_cases hg : (!dhas p g || !(pyGet p g).isTruthy) = true
    · rw [hg] at h
      simp only at h
      injection h with h
      subst h
      rw [if_pos hg]
    · have hg' : (!dhas p g || !(pyGet p g).isTruthy) = false := by
        simpa using hg
      rw [hg'] at h
      simp only at h
      rw [if_neg (by simp [hg'])]
      exact ih h

theorem checkRequired_eq_ok_of_find_none (p : PyDict) (fs : List String)
    (h : fs.find? (fun g => !dhas p g || !(pyGet p g).isTruthy) = none) :
    checkRequired p fs = .ok () := by
  induction fs with
  | nil => rfl
  | cons g rest ih =>
    rw [checkRequired]
    unfold List.find? at h
    by_cases hg : (!dhas p g || !(pyGet p g).isTruthy) = true
    · rw [hg] at h; simp at h
    · have hg' : (!dhas p g || !(pyGet p g).isTruthy) = false := by
        simpa using hg
      rw [hg'] at h
      simp only at h
      rw [if_neg (by simp [hg'])]
      exact ih h

/-! ### Claims -/

/-- C1: the spec requires every identifier-shaped input to surface decode
failures as a client-visible 400, never a 500.  The code violates this:
`get_case_by_id` never calls `_validate_case_id`, so `ObjectId(case_id)`
raises `bson.errors.InvalidId` — which is not a `ValueError` — and the
router's generic handler answers 500; likewise `create_case`'s
`ObjectId(case_data["created_by"])` on a malformed actor id. -/
theorem c1_malformed_ids_hit_the_generic_500_handler :
    getCaseById emptyDB "not-an-objectid"
        = .error (.invalidId "not a valid ObjectId: not-an-objectid")
    ∧ routeGetCase emptyDB "not-an-objectid" = .serverError500
    ∧ routeCreateCase emptyDB payloadBadCreatedBy 100 2024 oidB = .serverError500 :=
  ⟨by rfl, by rfl, by rfl⟩

/-- C2: the spec says a `status` update without an accompanying
`updated_by` fails with `ValidationError` (400).  When the key is absent
(not merely empty), `update_data["updated_by"]` raises `KeyError` instead,
which the router maps to 500. -/
theorem c2_status_without_updated_by_key_raises_keyerror :
    updateCase emptyDB oidA [("status", .vStr "closed")] 5
        = .error (.keyError "updated_by")
    ∧ routeUpdateCase emptyDB oidA [("status", .vStr "closed")] 5 = .serverError500 :=
  ⟨by rfl, by rfl⟩

/-- C3: the spec says updating a well-formed id absent from the active
collection fails with `NotFound`, surfaced as 404.  The service instead
raises `ValueError("Case not found")`, which the router's
`except ValueError` clause maps to 400. -/
theorem c3_update_of_absent_case_maps_to_400_not_404 :
    updateCase emptyDB oidA [("victims", .vList [])] 5
        = .error (.valueError "Case not found")
    ∧ routeUpdateCase emptyDB oidA [("victims", .vList [])] 5
        = .badRequest400 "Case not found" :=
  ⟨by rfl, by rfl⟩

/-- C4: the spec says `listArchived` applies the same Filter Builder
semantics as `list` (dates constraining `created_at`).  In the code,
`get_archived_cases` passes five positional arguments to the
eight-parameter `_build_filter_query` (binding `date_from`/`date_to` to
the `status`/`priority` slots and leaving three parameters unbound), so
every call raises `TypeError` and the archived listing route always
answers 500 — while the active path does put the date range on
`created_at`. -/
theorem c4_archived_list_filters_never_reach_the_builder :
    (∀ (db : DB) (f : CaseFilters), routeListArchivedCases db f = .serverError500)
    ∧ (∀ (db : DB) (vt c r : Option String) (df dt : Option Nat) (s l : Nat),
        (getArchivedCases db vt c r df dt s l).isOk = false)
    ∧ buildFilterQuery none none none none none none (some 86400) (some 172800)
        = [("created_at", QueryCond.dateRange (some 86400) (some (endOfDay 172800)))] :=
  ⟨fun _ _ => rfl, fun _ _ _ _ _ _ _ _ => rfl, by rfl⟩

/-- C8: the pagination envelope computes
`has_next = (skip + limit) < total_count` and `has_prev = skip > 0`
(both false for an empty result at skip 0), and always echoes all eight
recognized filter fields. -/
theorem c8_pagination_envelope_shape :
    ∀ (data : QueryResult) (f : CaseFilters),
      (buildPaginatedResponse data f).pagination.has_next
          = decide (f.skip + f.limit < data.total_count)
      ∧ (buildPaginatedResponse data f).pagination.has_prev = decide (0 < f.skip)
      ∧ (data.total_count = 0 → f.skip = 0 →
          (buildPaginatedResponse data f).pagination.has_next = false
          ∧ (buildPaginatedResponse data f).pagination.has_prev = false)
      ∧ (buildPaginatedResponse data f).filters_applied
          = [("violation_types", f.violation_types), ("country", f.country),
             ("region", f.region), ("priority", f.priority), ("status", f.status),
             ("search", f.search), ("date_from", f.date_from), ("date_to", f.date_to)] := by
  intro data f
  refine ⟨rfl, rfl, ?_, rfl⟩
  intro h0 hs
  constructor <;> simp [buildPaginatedResponse, h0, hs]

theorem c8_pagination_envelope_shape_witness :
    (buildPaginatedResponse ⟨[], 0, 0⟩ {}).pagination.has_next = false
    ∧ (buildPaginatedResponse ⟨[], 0, 0⟩ {}).pagination.has_prev = false :=
  (c8_pagination_envelope_shape ⟨[], 0, 0⟩ {}).2.2.1 rfl rfl

/-- C9 counterexample: the claim says a creation payload with an
empty-string country inside a present location object fails with
`ValidationError` and persists nothing.  The code only checks
`"country" not in case_data["location"]`, so the empty country is
accepted and a case is persisted. -/
theorem c9_counterexample_empty_country_is_accepted :
    (createCase emptyDB payloadEmptyCountry 100 2024 oidB).isOk = true
    ∧ (match createCase emptyDB payloadEmptyCountry 100 2024 oidB with
       | .ok (_, db') => db'.cases.length
       | .error _ => 0) = 1 :=
  ⟨by rfl, by rfl⟩

/-- C9 (amended): when any of the required top-level fields
{title, description, violation_types, priority, location} is absent or
empty, or a present location dict lacks the `country` key, `create` fails
with a `ValueError` naming that (first) missing field; a present but
empty `location.country` string is accepted. -/
theorem c9_create_validation_names_first_missing_field :
    ∀ (db : DB) (p : PyDict) (now year : Nat) (newOid : String) (f : String),
      firstMissingField p = some f →
      createCase db p now year newOid
        = .error (.valueError ("Missing required field: " ++ f)) := by
  intro db p now year newOid f h
  cases hf : requiredFields.find? (fun g => !dhas p g || !(pyGet p g).isTruthy) with
  | some g =>
    have hfg : g = f := by
      have h2 : (some g : Option String) = some f := by
        unfold firstMissingField at h
        rw [hf] at h
        exact h
      exact Option.some.inj h2
    subst hfg
    unfold createCase
    rw [checkRequired_eq_error_of_find p requiredFields g hf]
  | none =>
    have h' : (match pyGet p "location" with
               | Value.vDict kvs =>
                   if dhas kvs "country" then none else some "location.country"
               | _ => (none : Option String)) = some f := by
      unfold firstMissingField at h
      rw [hf] at h
      exact h
    cases hloc : pyGet p "location" with
    | vDict kvs =>
      rw [hloc] at h'
      have h'' : (if dhas kvs "country" then none else some "location.country") = some f := h'
      by_cases hc : dhas kvs "country"
      · rw [if_pos hc] at h''; exact absurd h'' (by simp)
      · have hcf : dhas kvs "country" = false := by simpa using hc
        rw [if_neg hc] at h''
        have hfv : f = "location.country" := (Option.some.inj h'').symm
        subst hfv
        unfold createCase
        rw [checkRequired_eq_ok_of_find_none p requiredFields hf,
          show pyInKey "country" (pyGet p "location") = Except.ok false from by
            rw [hloc]; simp [pyInKey, hcf]]
        rfl
    | vNone => rw [hloc] at h'; exact absurd h' (by simp)
    | vBool b => rw [hloc] at h'; exact absurd h' (by simp)
    | vInt n => rw [hloc] at h'; exact absurd h' (by simp)
    | vStr s => rw [hloc] at h'; exact absurd h' (by simp)
    | vOid s => rw [hloc] at h'; exact absurd h' (by simp)
    | vDT t => rw [hloc] at h'; exact absurd h' (by simp)
    | vList xs => rw [hloc] at h'; exact absurd h' (by simp)

theorem c9_create_validation_names_first_missing_field_witness :
    firstMissingField [("title", Value.vStr "T")] = some "description"
    ∧ createCase emptyDB [("title", Value.vStr "T")] 1 2024 oidB
        = .error (.valueError "Missing required field: description") :=
  ⟨by rfl,
   c9_create_validation_names_first_missing_field emptyDB
     [("title", Value.vStr "T")] 1 2024 oidB "description" (by rfl)⟩

/-! ### Shape lemmas for update_case -/

theorem find?_rev_none_of_subset (fs : PyDict) (ks : List String) (k : String)
    (hsub : keysOf fs ⊆ ks) (hk : k ∉ ks) :
    fs.reverse.find? (fun p => p.1 == k) = none := by
  rw [List.find?_eq_none]
  intro p hp
  simp only [beq_iff_eq]
  intro hpk
  exact hk (hpk ▸ hsub (List.mem_map_of_mem Prod.fst (List.mem_reverse.mp hp)))

theorem victimsField_ok_keys (u : PyDict) (f1 : PyDict) (h : victimsField u = .ok f1) :
    keysOf f1 ⊆ ["victims"] := by
  unfold victimsField at h
  split at h
  · split at h
    · exact absurd h (by simp)
    · injection h with h
      subst h
      simp [keysOf]
  · injection h with h
    subst h
    simp [keysOf]

theorem sourceReportsField_ok_keys (u : PyDict) (f2 : PyDict)
    (h : sourceReportsField u = .ok f2) : keysOf f2 ⊆ ["source_reports"] := by
  unfold sourceReportsField at h
  split at h
  · split at h
    · exact absurd h (by simp)
    · injection h with h
      subst h
      simp [keysOf]
  · injection h with h
    subst h
    simp [keysOf]

theorem updatedByField_ok_keys (u : PyDict) (f5 : PyDict)
    (h : updatedByField u = .ok f5) : keysOf f5 ⊆ ["updated_by"] := by
  unfold updatedByField at h
  split at h
  · split at h
    · split at h
      · injection h with h
        subst h
        simp [keysOf]
      · exact absurd h (by simp)
    · injection h with h
      subst h
      simp [keysOf]
  · injection h with h
    subst h
    simp [keysOf]

/-- On success, `fields_to_set` is the concatenation of an optional
`victims` binding, an optional `source_reports` binding, the supplied
`status` binding when present, the unconditional `updated_at` stamp, and
an optional `updated_by` binding. -/
theorem buildFieldsToSet_ok_shape (u : PyDict) (t : Nat) (fs : PyDict)
    (h : buildFieldsToSet u t = .ok fs) :
    ∃ f1 f2 f5 : PyDict,
      fs = f1 ++ f2 ++ statusField u ++ [("updated_at", Value.vDT t)] ++ f5
      ∧ keysOf f1 ⊆ ["victims"]
      ∧ keysOf f2 ⊆ ["source_reports"]
      ∧ keysOf f5 ⊆ ["updated_by"] := by
  unfold buildFieldsToSet at h
  split at h
  · exact absurd h (by simp)
  · rename_i f1 h1
    split at h
    · exact absurd h (by simp)
    · rename_i f2 h2
      split at h
      · exact absurd h (by simp)
      · rename_i f5 h5
        injection h with h
        exact ⟨f1, f2, f5, h.symm, victimsField_ok_keys u f1 h1,
          sourceReportsField_ok_keys u f2 h2, updatedByField_ok_keys u f5 h5⟩

/-- Evaluation of a `$set` with the `fields_to_set` shape: `updated_at`
gets the stamp, `status` gets the supplied value when present, and every
key outside the five updatable fields is untouched. -/
theorem dget_setFields_of_shape (d f1 f2 f5 : PyDict) (o : Option Value) (t : Nat)
    (h1 : keysOf f1 ⊆ ["victims"]) (h2 : keysOf f2 ⊆ ["source_reports"])
    (h5 : keysOf f5 ⊆ ["updated_by"]) :
    dget (setFields d (f1 ++ f2 ++ (match o with
                                    | some s => [("status", s)]
                                    | none => [])
          ++ [("updated_at", Value.vDT t)] ++ f5)) "updated_at" = some (.vDT t)
    ∧ dget (setFields d (f1 ++ f2 ++ (match o with
                                      | some s => [("status", s)]
                                      | none => [])
          ++ [("updated_at", Value.vDT t)] ++ f5)) "status"
        = (match o with | some s => some s | none => dget d "status")
    ∧ (∀ k, k ∉ updatableFields →
        dget (setFields d (f1 ++ f2 ++ (match o with
                                        | some s => [("status", s)]
                                        | none => [])
              ++ [("updated_at", Value.vDT t)] ++ f5)) k = dget d k)
    ∧ keysOf (f1 ++ f2 ++ (match o with
                           | some s => [("status", s)]
                           | none => [])
          ++ [("updated_at", Value.vDT t)] ++ f5) ⊆ updatableFields := by
  have hf1 : ∀ k, k ∉ (["victims"] : List String) →
      f1.reverse.find? (fun p => p.1 == k) = none :=
    fun k hk => find?_rev_none_of_subset f1 _ k h1 hk
  have hf2 : ∀ k, k ∉ (["source_reports"] : List String) →
      f2.reverse.find? (fun p => p.1 == k) = none :=
    fun k hk => find?_rev_none_of_subset f2 _ k h2 hk
  have hf5 : ∀ k, k ∉ (["updated_by"] : List String) →
      f5.reverse.find? (fun p => p.1 == k) = none :=
    fun k hk => find?_rev_none_of_subset f5 _ k h5 hk
  refine ⟨?_, ?_, ?_, ?_⟩
  · rw [dget_setFields]
    simp only [List.reverse_append, List.find?_append]
    rw [hf1 "updated_at" (by decide), hf2 "updated_at" (by decide),
      hf5 "updated_at" (by decide)]
    cases o with
    | some s => simp [List.find?]
    | none => simp [List.find?]
  · rw [dget_setFields]
    simp only [List.reverse_append, List.find?_append]
    rw [hf1 "status" (by decide), hf2 "status" (by decide), hf5 "status" (by decide)]
    cases o with
    | some s => simp [List.find?]
    | none => simp [List.find?]
  · intro k hk
    have hkv : k ∉ (["victims"] : List String) := by
      intro hm; exact hk (by simpa [updatableFields] using Or.inl (by simpa using hm))
    rw [dget_setFields]
    simp only [List.reverse_append, List.find?_append]
    have h1' : f1.reverse.find? (fun p => p.1 == k) = none := by
      apply find?_rev_none_of_subset f1 _ k h1
      intro hm
      exact hk (by simp only [updatableFields, List.mem_cons] at hm ⊢; tauto)
    have h2' : f2.reverse.find? (fun p => p.1 == k) = none := by
      apply find?_rev_none_of_subset f2 _ k h2
      intro hm
      exact hk (by simp only [updatableFields, List.mem_cons] at hm ⊢; tauto)
    have h5' : f5.reverse.find? (fun p => p.1 == k) = none := by
      apply find?_rev_none_of_subset f5 _ k h5
      intro hm
      exact hk (by simp only [updatableFields, List.mem_cons] at hm ⊢; tauto)
    have hk_st : k ≠ "status" := by
      intro hkst; exact hk (by simp [updatableFields, hkst])
    have hk_ua : k ≠ "updated_at" := by
      intro hkua; exact hk (by simp [updatableFields, hkua])
    rw [h1', h2', h5']
    have hbu : ("updated_at" == k) = false := beq_eq_false_iff_ne.mpr (Ne.symm hk_ua)
    have hbs : ("status" == k) = false := beq_eq_false_iff_ne.mpr (Ne.symm hk_st)
    cases o with
    | some s => simp [List.find?, hbu, hbs]
    | none => simp [List.find?, hbu]
  · intro k hkmem
    simp only [keysOf, List.map_append, List.mem_append] at hkmem
    rcases hkmem with ((((hm | hm) | hm) | hm) | hm)
    · exact (by simpa [updatableFields] using Or.inl (h1 hm) : k ∈ updatableFields)
    · exact (by simpa [updatableFields] using Or.inr (Or.inl (h2 hm)) : k ∈ updatableFields)
    · cases o with
      | some s =>
        simp only [keysOf, List.map] at hm
        simp only [List.mem_singleton] at hm
        simp [updatableFields, hm]
      | none => simp [keysOf] at hm
    · simp only [List.map, List.mem_singleton] at hm
      simp [updatableFields, hm]
    · have := h5 hm
      simp only [List.mem_singleton] at this
      simp [updatableFields, this]

theorem maybePushHistory_preserves (db : DB) (u existing : PyDict) (t : Nat) (db2 : DB)
    (h : maybePushHistory db u existing t = .ok db2) :
    db2.cases = db.cases ∧ db2.archived = db.archived := by
  unfold maybePushHistory at h
  split at h
  · split at h
    · split at h
      · exact absurd h (by simp)
      · injection h with h
        subst h
        exact ⟨rfl, rfl⟩
    · injection h with h
      subst h
      exact ⟨rfl, rfl⟩
  · injection h with h
    subst h
    exact ⟨rfl, rfl⟩

theorem dget_singleton (a : String) (b : Value) (k : String) :
    dget [(a, b)] k = if a = k then some b else none := by
  rw [dget_cons, dget_nil]

theorem maybePushHistory_no_status (db : DB) (u existing : PyDict) (t : Nat)
    (h : dget u "status" = none) : maybePushHistory db u existing t = .ok db := by
  unfold maybePushHistory
  rw [h]

theorem maybePushHistory_same_status (db : DB) (u existing : PyDict) (t : Nat)
    (s : Value) (hst : dget u "status" = some s) (heq : s = pyGet existing "status") :
    maybePushHistory db u existing t = .ok db := by
  unfold maybePushHistory
  simp only [hst]
  rw [if_neg (by simp [heq])]

theorem maybePushHistory_push (db : DB) (u existing : PyDict) (t : Nat)
    (s : Value) (entry : PyDict)
    (hst : dget u "status" = some s) (hne : s ≠ pyGet existing "status")
    (hbe : buildCaseHistoryEntry s (pyGet u "updated_by") t = .ok entry) :
    maybePushHistory db u existing t
      = .ok { db with
          statusHistory := pushHistoryEntry db.statusHistory (pyGet existing "case_id") entry } := by
  unfold maybePushHistory
  simp only [hst]
  rw [if_pos hne, hbe]

/-- Equation for a successful `update_case` run. -/
theorem updateCase_eq (db : DB) (cid : String) (u : PyDict) (t : Nat)
    (existing : PyDict) (fs : PyDict) (db2 : DB)
    (hval : oidValid cid = true)
    (hpre : checkUpdatePre cid u = none)
    (hfind : findOneById db.cases cid = some existing)
    (hfs : buildFieldsToSet u t = .ok fs)
    (hne : fs.isEmpty = false)
    (hmp : maybePushHistory { db with cases := updateFirstById db.cases cid fs } u existing t
            = .ok db2) :
    updateCase db cid u t = .ok ((findOneById db2.cases cid).map serializeCase, db2) := by
  unfold updateCase
  simp only [hpre, hfind, hfs, hne, hmp, Bool.false_eq_true, if_false]
  unfold getCaseById findCaseById mkObjectId
  rw [if_pos hval]

/-- Decomposition of a successful `update_case` run. -/
theorem updateCase_ok_inv (db : DB) (cid : String) (u : PyDict) (t : Nat)
    (r : Option Value) (db' : DB)
    (hok : updateCase db cid u t = .ok (r, db')) :
    ∃ existing fs,
      findOneById db.cases cid = some existing
      ∧ buildFieldsToSet u t = .ok fs
      ∧ fs.isEmpty = false
      ∧ maybePushHistory { db with cases := updateFirstById db.cases cid fs } u existing t
          = .ok db' := by
  unfold updateCase at hok
  split at hok
  · exact absurd hok (by simp)
  · split at hok
    · exact absurd hok (by simp)
    · rename_i existing hfind
      split at hok
      · exact absurd hok (by simp)
      · rename_i fs hfs
        obtain ⟨f1, f2, f5, hsh, -, -, -⟩ := buildFieldsToSet_ok_shape u t fs hfs
        have hne : fs.isEmpty = false := by
          rw [hsh]
          simp
        rw [hne] at hok
        simp only [Bool.false_eq_true, if_false] at hok
        split at hok
        · exact absurd hok (by simp)
        · rename_i db2 hmp
          split at hok
          · exact absurd hok (by simp)
          · rename_i c hget
            simp only [Except.ok.injEq, Prod.mk.injEq] at hok
            obtain ⟨-, hdb⟩ := hok
            exact ⟨existing, fs, hfind, hfs, hne, hdb ▸ hmp⟩

/-- C10: a successful `update(id, payload)` leaves the archived collection
alone and changes no stored-case field outside
{victims, source_reports, status, updated_by, updated_at} — any other
supplied field such as `title` is silently ignored — while the updated
case always gets `updated_at` stamped; and a non-empty payload containing
none of the recognized fields still succeeds against an existing case. -/
theorem c10_update_modifies_only_updatable_fields :
    (∀ (db : DB) (cid : String) (u : PyDict) (t : Nat) (r : Option Value) (db' : DB),
      updateCase db cid u t = .ok (r, db') →
      db'.archived = db.archived
      ∧ (∀ k, k ∉ updatableFields →
          db'.cases.map (fun d => dget d k) = db.cases.map (fun d => dget d k))
      ∧ (∀ d', findOneById db'.cases cid = some d' →
          dget d' "updated_at" = some (.vDT t)))
    ∧ (∀ (db : DB) (cid : String) (d : PyDict) (v : Value) (t : Nat),
        oidValid cid = true →
        findOneById db.cases cid = some d →
        ∃ r db', updateCase db cid [("title", v)] t = .ok (r, db')) := by
  constructor
  · intro db cid u t r db' hok
    obtain ⟨existing, fs, hfind, hfs, hne, hmp⟩ := updateCase_ok_inv db cid u t r db' hok
    obtain ⟨f1, f2, f5, hsh, h1, h2, h5⟩ := buildFieldsToSet_ok_shape u t fs hfs
    have hlem := dget_setFields_of_shape existing f1 f2 f5 (dget u "status") t h1 h2 h5
    have hsub : keysOf fs ⊆ updatableFields := by
      rw [hsh]
      exact hlem.2.2.2
    obtain ⟨hcases, harch⟩ := maybePushHistory_preserves _ u existing t db' hmp
    refine ⟨harch, ?_, ?_⟩
    · intro k hk
      rw [hcases]
      exact updateFirstById_map_dget db.cases cid fs k (fun hmem => hk (hsub hmem))
    · intro d' hd'
      rw [hcases] at hd'
      have hid : "_id" ∉ keysOf fs := by
        intro hmem
        have := hsub hmem
        simp [updatableFields] at this
      rw [findOneById_updateFirstById db.cases cid fs hid, hfind] at hd'
      simp only [Option.map_some'] at hd'
      have hd'' : setFields existing fs = d' := Option.some.inj hd'
      rw [← hd'', hsh]
      exact hlem.1
  · intro db cid d v t hval hfind
    have htitle_status : dget [("title", v)] "status" = none := by
      rw [dget_singleton, if_neg (by decide)]
    have htitle_victims : dget [("title", v)] "victims" = none := by
      rw [dget_singleton, if_neg (by decide)]
    have htitle_sources : dget [("title", v)] "source_reports" = none := by
      rw [dget_singleton, if_neg (by decide)]
    have htitle_ub : dget [("title", v)] "updated_by" = none := by
      rw [dget_singleton, if_neg (by decide)]
    have hpre : checkUpdatePre cid [("title", v)] = none := by
      unfold checkUpdatePre
      rw [if_neg (by simp [hval]), if_neg (by simp), if_neg (by simp [dhas, htitle_status])]
    have hfs : buildFieldsToSet [("title", v)] t = .ok [("updated_at", .vDT t)] := by
      unfold buildFieldsToSet victimsField sourceReportsField updatedByField statusField
      rw [htitle_victims, htitle_sources, htitle_ub, htitle_status]
      rfl
    exact ⟨_, _,
      updateCase_eq db cid [("title", v)] t d [("updated_at", .vDT t)] _ hval hpre hfind hfs
        (by rfl) (maybePushHistory_no_status _ _ _ _ htitle_status)⟩

theorem c10_update_modifies_only_updatable_fields_witness :
    ∃ r db', updateCase ⟨[[("_id", Value.vOid oidA), ("title", Value.vStr "old")]], [], []⟩
        oidA [("title", Value.vStr "new-title")] 7 = .ok (r, db') :=
  c10_update_modifies_only_updatable_fields.2
    ⟨[[("_id", Value.vOid oidA), ("title", Value.vStr "old")]], [], []⟩
    oidA [("_id", Value.vOid oidA), ("title", Value.vStr "old")]
    (Value.vStr "new-title") 7 (by rfl) (by rfl)

/-! ### moveCase equation lemmas -/

theorem moveCase_invalid (src tgt : List PyDict) (cid : String) (i : Bool)
    (hval : oidValid cid = false) :
    moveCase src tgt cid i = .error (.valueError "Invalid case ID format") := by
  unfold moveCase validateCaseId
  simp [hval]

theorem moveCase_not_found (src tgt : List PyDict) (cid : String) (i : Bool)
    (hval : oidValid cid = true) (hfind : findOneById src cid = none) :
    moveCase src tgt cid i = .ok (false, src, tgt) := by
  unfold moveCase validateCaseId
  rw [if_pos hval]
  simp [hfind]

theorem moveCase_found_clean (src tgt : List PyDict) (cid : String) (doc : PyDict)
    (hval : oidValid cid = true) (hfind : findOneById src cid = some doc) :
    moveCase src tgt cid false = .ok (true, eraseFirstById src cid, tgt ++ [doc]) := by
  unfold moveCase validateCaseId deleteOneById
  rw [if_pos hval]
  simp [hfind]

theorem moveCase_found_interference (src tgt : List PyDict) (cid : String) (doc : PyDict)
    (hval : oidValid cid = true) (hfind : findOneById src cid = some doc)
    (herase : findOneById (eraseFirstById src cid) cid = none) :
    moveCase src tgt cid true
      = .ok (false, eraseFirstById src cid, eraseFirstById (tgt ++ [doc]) cid) := by
  unfold moveCase validateCaseId deleteOneById
  rw [if_pos hval]
  simp [hfind, herase]

/-- C5: an `archive`/`restore` move never leaves the document visible in
both collections (assuming the source holds at most one copy of the id):
in every successful outcome the source no longer holds the id, when the
source delete finds nothing (the `interference` run) the just-inserted
target copy is deleted again before `false` is reported, and a missing
source document yields `false` with both collections untouched rather
than an exception. -/
theorem c5_move_never_leaves_doc_in_both_collections :
    (∀ (src tgt : List PyDict) (cid : String) (interference b : Bool)
       (src' tgt' : List PyDict),
      findOneById (eraseFirstById src cid) cid = none →
      moveCase src tgt cid interference = .ok (b, src', tgt') →
      ¬((findOneById src' cid).isSome = true ∧ (findOneById tgt' cid).isSome = true))
    ∧ (∀ (src tgt : List PyDict) (cid : String) (doc : PyDict),
        oidValid cid = true →
        findOneById src cid = some doc →
        findOneById tgt cid = none →
        findOneById (eraseFirstById src cid) cid = none →
        moveCase src tgt cid true = .ok (false, eraseFirstById src cid, tgt))
    ∧ (∀ (src tgt : List PyDict) (cid : String) (interference : Bool),
        oidValid cid = true →
        findOneById src cid = none →
        moveCase src tgt cid interference = .ok (false, src, tgt)) := by
  refine ⟨?_, ?_, ?_⟩
  · intro src tgt cid interference b src' tgt' herase hok
    cases hval : oidValid cid with
    | false =>
      rw [moveCase_invalid src tgt cid interference hval] at hok
      exact absurd hok (by simp)
    | true =>
      cases hfind : findOneById src cid with
      | none =>
        rw [moveCase_not_found src tgt cid interference hval hfind] at hok
        simp only [Except.ok.injEq, Prod.mk.injEq] at hok
        obtain ⟨-, hs, -⟩ := hok
        rintro ⟨h1, -⟩
        rw [← hs, hfind] at h1
        simp at h1
      | some doc =>
        cases interference with
        | false =>
          rw [moveCase_found_clean src tgt cid doc hval hfind] at hok
          simp only [Except.ok.injEq, Prod.mk.injEq] at hok
          obtain ⟨-, hs, -⟩ := hok
          rintro ⟨h1, -⟩
          rw [← hs, herase] at h1
          simp at h1
        | true =>
          rw [moveCase_found_interference src tgt cid doc hval hfind herase] at hok
          simp only [Except.ok.injEq, Prod.mk.injEq] at hok
          obtain ⟨-, hs, -⟩ := hok
          rintro ⟨h1, -⟩
          rw [← hs, herase] at h1
          simp at h1
  · intro src tgt cid doc hval hfind htgt herase
    have hdoc : dget doc "_id" = some (.vOid cid) := by
      have := List.find?_some hfind
      simpa using this
    rw [moveCase_found_interference src tgt cid doc hval hfind herase,
      eraseFirstById_append_of_none tgt doc cid htgt hdoc]
  · intro src tgt cid interference hval hfind
    exact moveCase_not_found src tgt cid interference hval hfind

theorem c5_move_never_leaves_doc_in_both_collections_witness :
    moveCase [[("_id", Value.vOid oidA)]] [] oidA true
      = .ok (false, [], ([] : List PyDict))
    ∧ moveCase ([] : List PyDict) [[("_id", Value.vOid oidB)]] oidA false
      = .ok (false, [], [[("_id", Value.vOid oidB)]]) :=
  ⟨c5_move_never_leaves_doc_in_both_collections.2.1
      [[("_id", Value.vOid oidA)]] [] oidA [("_id", Value.vOid oidA)]
      (by rfl) (by rfl) (by rfl) (by rfl),
   c5_move_never_leaves_doc_in_both_collections.2.2
      [] [[("_id", Value.vOid oidB)]] oidA false (by rfl) (by rfl)⟩

/-- C7: with `violationTypes` supplied as a comma-separated list the built
predicate matches exactly the documents whose stored violation-type list
contains every listed type (`$all`, AND semantics), and with no filter
fields supplied the built predicate matches every document. -/
theorem c7_violation_types_all_semantics_and_empty_filter_matches_all :
    (∀ (vt : String) (doc : PyDict) (xs : List Value),
      lookupPath doc "violation_types" = some (.vList xs) →
      (matchesQuery doc (buildFilterQuery (some vt) none none none none none none none) = true
        ↔ ∀ t ∈ splitTypes vt, Value.vStr t ∈ xs))
    ∧ (∀ doc : PyDict,
        matchesQuery doc (buildFilterQuery none none none none none none none none) = true) := by
  constructor
  · intro vt doc xs hdoc
    by_cases hvt : vt.isEmpty
    · have hv : vt = "" := (String.isEmpty_iff vt).mp hvt
      subst hv
      have h1 : buildFilterQuery (some "") none none none none none none none = [] := rfl
      have h2 : splitTypes "" = [] := rfl
      rw [h1, h2]
      simp [matchesQuery]
    · have hq : buildFilterQuery (some vt) none none none none none none none
          = if !(splitTypes vt).isEmpty
            then [("violation_types", QueryCond.all (splitTypes vt))] else [] := by
        unfold buildFilterQuery
        simp [strTruthy, hvt]
      by_cases hts : (splitTypes vt).isEmpty
      · have hte : splitTypes vt = [] := (List.isEmpty_iff).mp hts
        rw [hq, hts]
        simp [matchesQuery, hte]
      · have htf : (splitTypes vt).isEmpty = false := by simpa using hts
        rw [hq, htf]
        simp only [Bool.not_false, if_pos]
        simp [matchesQuery, evalCond, hdoc, htf]
  · intro doc
    rfl

theorem c7_violation_types_all_semantics_witness :
    matchesQuery [("violation_types", Value.vList [Value.vStr "a", Value.vStr "b"])]
        (buildFilterQuery (some "a,b") none none none none none none none) = true
      ↔ ∀ t ∈ splitTypes "a,b",
          Value.vStr t ∈ [Value.vStr "a", Value.vStr "b"] :=
  c7_violation_types_all_semantics_and_empty_filter_matches_all.1 "a,b"
    [("violation_types", Value.vList [Value.vStr "a", Value.vStr "b"])]
    [Value.vStr "a", Value.vStr "b"] (by rfl)

/-! ### Lemmas for the status-history claim -/

theorem entryStatus_stringify (e : Value) :
    entryStatus (stringifyUpdatedBy e) = entryStatus e := by
  cases e with
  | vDict kvs =>
    show entryStatus (match dget kvs "updated_by" with
        | some (.vOid s) => Value.vDict (dset kvs "updated_by" (.vStr s))
        | _ => Value.vDict kvs) = entryStatus (.vDict kvs)
    cases hub : dget kvs "updated_by" with
    | none => rfl
    | some v =>
      cases v with
      | vOid s =>
        show pyGet (dset kvs "updated_by" (Value.vStr s)) "status" = pyGet kvs "status"
        rw [pyGet_dset, if_neg (by decide)]
      | vNone => rfl
      | vBool b => rfl
      | vInt n => rfl
      | vStr s => rfl
      | vDT t => rfl
      | vList xs => rfl
      | vDict kvs2 => rfl
  | vNone => rfl
  | vBool b => rfl
  | vInt n => rfl
  | vStr s => rfl
  | vOid s => rfl
  | vDT t => rfl
  | vList xs => rfl

theorem getCaseStatusHistory_singleton (cs ar : List PyDict) (h : PyDict) (hrm : String)
    (hh : dget h "case_id" = some (.vStr hrm)) :
    (getCaseStatusHistory ⟨cs, ar, [h]⟩ hrm).map entryStatus = histStatuses h := by
  unfold getCaseStatusHistory histStatuses histRaw
  have hpred : (dget h "case_id" == some (Value.vStr hrm)) = true := by simp [hh]
  simp only [List.find?, hpred]
  cases hhist : dget h "history" with
  | none => rfl
  | some v =>
    cases v with
    | vList es =>
      simp only [List.map_map]
      exact List.map_congr_left (fun e _ => entryStatus_stringify e)
    | vNone => rfl
    | vBool b => rfl
    | vInt n => rfl
    | vStr s => rfl
    | vOid s => rfl
    | vDT t => rfl
    | vDict kvs => rfl

theorem buildCaseHistoryEntry_status (s ub : Value) (t : Nat) (entry : PyDict)
    (h : buildCaseHistoryEntry s ub t = .ok entry) : dget entry "status" = some s := by
  unfold buildCaseHistoryEntry at h
  split at h
  · split at h
    · exact absurd h (by simp)
    · injection h with h
      subst h
      rw [dget_cons, if_pos rfl]
  · injection h with h
    subst h
    rw [dget_cons, if_pos rfl]

/-- One conversion step of `create_case` (the `source_reports`/`victims`
comprehensions) preserves every other key. -/
theorem convStep_preserves (d1 d2 : PyDict) (key : String)
    (h : (match dget d1 key with
          | some v =>
              match convertIdList v with
              | .error e => Except.error e
              | .ok v' => .ok (dset d1 key v')
          | none => .ok d1) = Except.ok d2)
    (k : String) (hk : k ≠ key) : dget d2 k = dget d1 k := by
  split at h
  · split at h
    · exact absurd h (by simp)
    · injection h with h
      subst h
      rw [dget_dset, if_neg hk]
  · injection h with h
    subst h
    rfl

theorem dget_setdefault (d : PyDict) (key : String) (v : Value) (k : String) (hk : k ≠ key) :
    dget (if dhas d key then d else dset d key v) k = dget d k := by
  split
  · rfl
  · rw [dget_dset, if_neg hk]

theorem dhas_of_dget_none (d : PyDict) (k : String) (h : dget d k = none) :
    dhas d k = false := by
  unfold dhas
  rw [h]
  rfl

theorem findOneById_singleton (d : PyDict) (oid : String)
    (h : dget d "_id" = some (.vOid oid)) : findOneById [d] oid = some d := by
  unfold findOneById List.find?
  rw [show (dget d "_id" == some (Value.vOid oid)) = true from by simp [h]]

theorem updateFirstById_singleton (d : PyDict) (oid : String) (fs : PyDict)
    (h : dget d "_id" = some (.vOid oid)) :
    updateFirstById [d] oid fs = [setFields d fs] := by
  unfold updateFirstById
  rw [if_pos (by simp [h])]

theorem pushHistoryEntry_singleton (h : PyDict) (cid : Value) (entry : PyDict)
    (hh : dget h "case_id" = some cid) :
    pushHistoryEntry [h] cid entry
      = [dset h "history" (.vList (histRaw h ++ [.vDict entry]))] := by
  unfold pushHistoryEntry histRaw
  rw [if_pos (by simp [hh])]

theorem histStatuses_push (h : PyDict) (entry : PyDict) :
    histStatuses (dset h "history" (.vList (histRaw h ++ [.vDict entry])))
      = histStatuses h ++ [entryStatus (.vDict entry)] := by
  unfold histStatuses histRaw
  rw [dget_dset, if_pos rfl]
  simp [List.map_append]

/-- Characterization of a successful `create_case` on an empty database:
one stored case document (carrying the generated `_id`, the generated
human-readable `case_id`, and status `"new"`) and one ledger document
holding exactly one entry with status `"new"`. -/
theorem createCase_emptyDB_ok (p : PyDict) (now year : Nat) (newOid : String)
    (c : Option Value) (db1 : DB)
    (hnoid : dhas p "_id" = false)
    (h : createCase emptyDB p now year newOid = .ok (c, db1)) :
    ∃ doc entry : PyDict,
      db1 = ⟨[doc], [],
        [[("case_id", .vStr (hrmIdOf emptyDB year)), ("history", .vList [.vDict entry])]]⟩
      ∧ dget doc "_id" = some (.vOid newOid)
      ∧ dget doc "case_id" = some (.vStr (hrmIdOf emptyDB year))
      ∧ dget doc "status" = some (.vStr "new")
      ∧ dget entry "status" = some (.vStr "new") := by
  unfold createCase at h
  dsimp only [] at h
  split at h
  · exact absurd h (by simp)
  · split at h
    · exact absurd h (by simp)
    · rename_i hasCountry hpc
      split at h
      · exact absurd h (by simp)
      · split at h
        · exact absurd h (by simp)
        · rename_i cb hcb
          split at h
          · exact absurd h (by simp)
          · rename_i cb' hcb'
            split at h
            · exact absurd h (by simp)
            · rename_i d2 hd2
              split at h
              · exact absurd h (by simp)
              · rename_i d3 hd3
                split at h
                · exact absurd h (by simp)
                · rename_i entry hbe
                  split at h
                  · exact absurd h (by simp)
                  · rename_i c0 hget
                    simp only [Except.ok.injEq, Prod.mk.injEq] at h
                    obtain ⟨-, hdb⟩ := h
                    subst hdb
                    refine ⟨_, entry, rfl, ?_, ?_, ?_,
                      buildCaseHistoryEntry_status _ _ now entry hbe⟩
                    all_goals {
                      have hid1 : dget (dset p "created_by" cb') "_id" = dget p "_id" := by
                        rw [dget_dset, if_neg (by decide)]
                      have hid2 : dget d2 "_id" = dget p "_id" := by
                        rw [convStep_preserves _ d2 "source_reports" hd2 "_id" (by decide), hid1]
                      have hid3 : dget d3 "_id" = dget p "_id" := by
                        rw [convStep_preserves d2 d3 "victims" hd3 "_id" (by decide), hid2]
                      have hpnone : dget p "_id" = none := by
                        unfold dhas at hnoid
                        cases hdg : dget p "_id" with
                        | none => rfl
                        | some w => rw [hdg] at hnoid; simp at hnoid
                      have hid5 : dget (if dhas (if dhas d3 "created_at" then d3
                            else dset d3 "created_at" (.vDT now)) "updated_at"
                          then (if dhas d3 "created_at" then d3 else dset d3 "created_at" (.vDT now))
                          else dset (if dhas d3 "created_at" then d3
                            else dset d3 "created_at" (.vDT now)) "updated_at" (.vDT now)) "_id"
                          = none := by
                        rw [dget_setdefault _ _ _ _ (by decide),
                          dget_setdefault _ _ _ _ (by decide), hid3, hpnone]
                      have hid7 : dget (dset (dset (if dhas (if dhas d3 "created_at" then d3
                            else dset d3 "created_at" (.vDT now)) "updated_at"
                          then (if dhas d3 "created_at" then d3 else dset d3 "created_at" (.vDT now))
                          else dset (if dhas d3 "created_at" then d3
                            else dset d3 "created_at" (.vDT now)) "updated_at" (.vDT now))
                          "case_id" (.vStr (hrmIdOf emptyDB year))) "status" (.vStr "new")) "_id"
                          = none := by
                        rw [dget_dset, if_neg (by decide), dget_dset, if_neg (by decide), hid5]
                      have hd7 := dhas_of_dget_none _ _ hid7
                      rw [hd7]
                      simp only [Bool.false_eq_true, if_false]
                      first
                      | rw [dget_dset, if_pos rfl]
                      | (rw [dget_dset, if_neg (by decide), dget_dset, if_neg (by decide),
                          dget_dset, if_pos rfl])
                      | (rw [dget_dset, if_neg (by decide), dget_dset, if_pos rfl])
                    }

theorem statusChanges_cons (cur : Value) (u : PyDict) (t : Nat)
    (rest : List (PyDict × Nat)) :
    statusChanges cur ((u, t) :: rest)
      = match dget u "status" with
        | some s => if s ≠ cur then s :: statusChanges s rest else statusChanges cur rest
        | none => statusChanges cur rest := rfl

/-- Core induction for the ledger claim: running a sequence of successful
updates against the one-case database preserves the one-case/one-ledger
shape and appends to the ledger exactly the statuses of the updates whose
supplied status differed from the stored status at the time, in order. -/
theorem applyUpdates_ledger (newOid hrm : String) :
    ∀ (upds : List (PyDict × Nat)) (d h : PyDict) (ar : List PyDict) (db2 : DB),
      dget d "_id" = some (.vOid newOid) →
      dget d "case_id" = some (.vStr hrm) →
      dget h "case_id" = some (.vStr hrm) →
      applyUpdates ⟨[d], ar, [h]⟩ newOid upds = .ok db2 →
      ∃ d' h', db2 = ⟨[d'], ar, [h']⟩
        ∧ dget h' "case_id" = some (.vStr hrm)
        ∧ histStatuses h' = histStatuses h ++ statusChanges (pyGet d "status") upds
  | [], d, h, ar, db2, hid, hcid, hhid, happ => by
      unfold applyUpdates at happ
      injection happ with happ
      exact ⟨d, h, happ.symm, hhid, by simp [statusChanges]⟩
  | (u, t) :: rest, d, h, ar, db2, hid, hcid, hhid, happ => by
      unfold applyUpdates at happ
      split at happ
      · exact absurd happ (by simp)
      · rename_i rv dbm hok
        obtain ⟨existing, fs, hfind, hfs, hne, hmp⟩ :=
          updateCase_ok_inv ⟨[d], ar, [h]⟩ newOid u t rv dbm hok
        rw [findOneById_singleton d newOid hid] at hfind
        injection hfind with hex
        subst hex
        obtain ⟨f1, f2, f5, hsh, h1, h2, h5⟩ := buildFieldsToSet_ok_shape u t fs hfs
        have hlem := dget_setFields_of_shape d f1 f2 f5 (dget u "status") t h1 h2 h5
        have hdb1 : ({ (⟨[d], ar, [h]⟩ : DB) with
              cases := updateFirstById [d] newOid fs } : DB)
            = ⟨[setFields d fs], ar, [h]⟩ := by
          rw [updateFirstById_singleton d newOid fs hid]
        rw [hdb1] at hmp
        have hid' : dget (setFields d fs) "_id" = some (.vOid newOid) := by
          rw [hsh]
          exact (hlem.2.2.1 "_id" (by decide)).trans hid
        have hcid' : dget (setFields d fs) "case_id" = some (.vStr hrm) := by
          rw [hsh]
          exact (hlem.2.2.1 "case_id" (by decide)).trans hcid
        have hst' : dget (setFields d fs) "status"
            = (match dget u "status" with
               | some s => some s
               | none => dget d "status") := by
          rw [hsh]
          exact hlem.2.1
        cases hstu : dget u "status" with
        | none =>
          rw [maybePushHistory_no_status _ u d t hstu] at hmp
          injection hmp with hmp
          subst hmp
          obtain ⟨d', h', hdb2, hh', hhist⟩ :=
            applyUpdates_ledger newOid hrm rest (setFields d fs) h ar db2 hid' hcid' hhid happ
          refine ⟨d', h', hdb2, hh', ?_⟩
          rw [hhist]
          have hpg : pyGet (setFields d fs) "status" = pyGet d "status" := by
            unfold pyGet
            rw [hst', hstu]
          have hsc : statusChanges (pyGet d "status") ((u, t) :: rest)
              = statusChanges (pyGet d "status") rest := by
            rw [statusChanges_cons, hstu]
          rw [hpg, hsc]
        | some s =>
          by_cases heq : s = pyGet d "status"
          · rw [maybePushHistory_same_status _ u d t s hstu heq] at hmp
            injection hmp with hmp
            subst hmp
            obtain ⟨d', h', hdb2, hh', hhist⟩ :=
              applyUpdates_ledger newOid hrm rest (setFields d fs) h ar db2 hid' hcid' hhid happ
            refine ⟨d', h', hdb2, hh', ?_⟩
            rw [hhist]
            have hpg : pyGet (setFields d fs) "status" = s := by
              unfold pyGet
              rw [hst', hstu]
              rfl
            have hsc : statusChanges (pyGet d "status") ((u, t) :: rest)
                = statusChanges (pyGet d "status") rest := by
              rw [statusChanges_cons, hstu]
              show (if s ≠ pyGet d "status" then s :: statusChanges s rest
                    else statusChanges (pyGet d "status") rest)
                  = statusChanges (pyGet d "status") rest
              rw [if_neg (by simp [heq])]
            rw [hpg, hsc, heq]
          · cases hbe : buildCaseHistoryEntry s (pyGet u "updated_by") t with
            | error e =>
              unfold maybePushHistory at hmp
              simp only [hstu] at hmp
              rw [if_pos heq, hbe] at hmp
              exact absurd hmp (by simp)
            | ok entry =>
              rw [maybePushHistory_push _ u d t s entry hstu heq hbe] at hmp
              have hpgc : pyGet d "case_id" = .vStr hrm := by
                unfold pyGet
                rw [hcid]
                rfl
              rw [hpgc, pushHistoryEntry_singleton h (.vStr hrm) entry hhid] at hmp
              injection hmp with hmp
              subst hmp
              have hh1id : dget (dset h "history" (.vList (histRaw h ++ [.vDict entry])))
                  "case_id" = some (.vStr hrm) := by
                rw [dget_dset, if_neg (by decide), hhid]
              obtain ⟨d', h', hdb2, hh', hhist⟩ :=
                applyUpdates_ledger newOid hrm rest (setFields d fs)
                  (dset h "history" (.vList (histRaw h ++ [.vDict entry]))) ar db2
                  hid' hcid' hh1id happ
              refine ⟨d', h', hdb2, hh', ?_⟩
              rw [hhist, histStatuses_push]
              have hes : entryStatus (.vDict entry) = s := by
                show (dget entry "status").getD Value.vNone = s
                rw [buildCaseHistoryEntry_status s (pyGet u "updated_by") t entry hbe]
                rfl
              have hpg : pyGet (setFields d fs) "status" = s := by
                unfold pyGet
                rw [hst', hstu]
                rfl
              have hsc : statusChanges (pyGet d "status") ((u, t) :: rest)
                  = s :: statusChanges s rest := by
                rw [statusChanges_cons, hstu]
                show (if s ≠ pyGet d "status" then s :: statusChanges s rest
                      else statusChanges (pyGet d "status") rest)
                    = s :: statusChanges s rest
                rw [if_pos heq]
              rw [hes, hpg, hsc]
              simp

/-- C6: every case created on a fresh store gets status `"new"` — even
when the creation payload supplies its own status — with a one-entry
ledger reading `"new"`; and after every sequence of successful updates the
ledger reads exactly `"new"` followed by the statuses of those updates
whose supplied status differed from the status stored at the time, in
update order (so its length is 1 + the number of such updates). -/
theorem c6_ledger_is_new_plus_status_changes :
    ∀ (p : PyDict) (now year : Nat) (newOid : String) (c : Option Value)
      (db1 : DB) (upds : List (PyDict × Nat)) (db2 : DB),
      dhas p "_id" = false →
      createCase emptyDB p now year newOid = .ok (c, db1) →
      applyUpdates db1 newOid upds = .ok db2 →
      db1.cases.map (fun d => dget d "status") = [some (.vStr "new")]
      ∧ (getCaseStatusHistory db1 (hrmIdOf emptyDB year)).map entryStatus = [.vStr "new"]
      ∧ (getCaseStatusHistory db2 (hrmIdOf emptyDB year)).map entryStatus
          = .vStr "new" :: statusChanges (.vStr "new") upds := by
  intro p now year newOid c db1 upds db2 hnoid hcreate happ
  obtain ⟨doc, entry, hdb1, hdocid, hdoccid, hdocst, hentryst⟩ :=
    createCase_emptyDB_ok p now year newOid c db1 hnoid hcreate
  subst hdb1
  have hhistid : dget ([("case_id", Value.vStr (hrmIdOf emptyDB year)),
      ("history", Value.vList [Value.vDict entry])] : PyDict) "case_id"
      = some (.vStr (hrmIdOf emptyDB year)) := by
    rw [dget_cons, if_pos rfl]
  have hes : entryStatus (Value.vDict entry) = Value.vStr "new" := by
    show (dget entry "status").getD Value.vNone = Value.vStr "new"
    rw [hentryst]
    rfl
  have hhs : histStatuses [("case_id", Value.vStr (hrmIdOf emptyDB year)),
      ("history", Value.vList [Value.vDict entry])] = [Value.vStr "new"] := by
    unfold histStatuses histRaw
    rw [show dget ([("case_id", Value.vStr (hrmIdOf emptyDB year)),
        ("history", Value.vList [Value.vDict entry])] : PyDict) "history"
        = some (Value.vList [Value.vDict entry]) from by
      rw [dget_cons, if_neg (by simp), dget_cons, if_pos rfl]]
    show [entryStatus (Value.vDict entry)] = [Value.vStr "new"]
    rw [hes]
  refine ⟨by simp [hdocst], ?_, ?_⟩
  · rw [getCaseStatusHistory_singleton _ _ _ _ hhistid, hhs]
  · obtain ⟨d', h', hdb2, hh', hhist⟩ :=
      applyUpdates_ledger newOid (hrmIdOf emptyDB year) upds doc
        [("case_id", Value.vStr (hrmIdOf emptyDB year)),
         ("history", Value.vList [Value.vDict entry])] [] db2
        hdocid hdoccid hhistid happ
    subst hdb2
    rw [getCaseStatusHistory_singleton _ _ _ _ hh', hhist, hhs]
    have hpg : pyGet doc "status" = Value.vStr "new" := by
      unfold pyGet
      rw [hdocst]
      rfl
    rw [hpg]
    rfl

theorem c6_ledger_is_new_plus_status_changes_witness :
    dhas payloadWithStatus "_id" = false
    ∧ (getCaseStatusHistory c6Db2 (hrmIdOf emptyDB 2024)).map entryStatus
        = Value.vStr "new" :: statusChanges (Value.vStr "new") c6Upds :=
  ⟨by rfl,
   (c6_ledger_is_new_plus_status_changes payloadWithStatus 100 2024 oidB
      c6ReturnedCase c6Db1 c6Upds c6Db2 (by rfl) (by rfl) (by rfl)).2.2⟩

end HRM
